import Mathlib

set_option maxHeartbeats 1000000

/-!
Verification development for the `EnhancedBrowserPool` component of the
X-updates scraping service (src/unnamed/part_000, lines 419-692).

The pool owns one browser handle, a map of open pages (JS `Map`, keyed by a
page identifier), and a set of active scrape-operation identifiers (JS `Set`).
JS `Map` and `Set` are modelled as insertion-ordered lists with unique keys /
unique members, which is exactly the observable behaviour of the JS classes.

Two semantic layers are developed:

* a sequential (atomic) layer, in which every pool method runs to completion
  without another task interleaving: each method becomes a pure state
  transformer (`initPool`, `acquirePage`, `releasePage`, `healthCheck`,
  `restart`, `onDisconnected`), with the outcome of the fallible browser API
  calls (launch success, close failure, cookie-source validity, liveness
  probe) supplied as explicit parameters;

* an interleaved layer, in which each in-flight `acquirePage`/`releasePage`
  call (and, in a dedicated smaller system, each in-flight `initialize` call)
  is a thread whose atomic segments are exactly the code regions between two
  `await` suspension points of the source, and a small-step relation picks an
  arbitrary thread (or fires the browser `disconnected` event) at each step.
-/

/-- A puppeteer browser handle: its identity and whether `isConnected()`
currently reports true. -/
structure Browser where
  bid : Nat
  connected : Bool
  deriving DecidableEq

/-- One entry of `this.pages` (lines 540-545): the stored record holds the
owning scrape id, the creation timestamp and the in-use flag (the page handle
itself carries no state the pool reads, so it is omitted). -/
structure PageInfo where
  scrapeId : Nat
  created : Nat
  inUse : Bool
  deriving DecidableEq

/-- The mutable fields of `EnhancedBrowserPool` (constructor, lines 420-433). -/
structure PoolState where
  browser : Option Browser
  pages : List (Nat × PageInfo)
  maxPages : Nat
  isInitializing : Bool
  lastHealthCheck : Nat
  cookiesLoaded : Bool
  instanceId : Nat
  activeScrapes : List Nat
  maxConcurrentScrapes : Nat
  deriving DecidableEq

/-- Model of `new EnhancedBrowserPool()` (lines 420-433): `maxPages = 3`,
`maxConcurrentScrapes = 2`, everything else empty/false. -/
def mkPool (iid t0 : Nat) : PoolState where
  browser := none
  pages := []
  maxPages := 3
  isInitializing := false
  lastHealthCheck := t0
  cookiesLoaded := false
  instanceId := iid
  activeScrapes := []
  maxConcurrentScrapes := 2

/-- Model of `Map.get` on the page map. -/
def mapGet (m : List (Nat × PageInfo)) (k : Nat) : Option PageInfo :=
  (m.find? (fun e => e.1 == k)).map Prod.snd

/-- Model of `Map.set` on the page map: replace in place if the key exists, else
append (JS `Map` keeps insertion order). -/
def mapSet (m : List (Nat × PageInfo)) (k : Nat) (v : PageInfo) :
    List (Nat × PageInfo) :=
  if (m.find? (fun e => e.1 == k)).isSome then
    m.map (fun e => if e.1 == k then (k, v) else e)
  else
    m ++ [(k, v)]

/-- Model of `Map.delete` on the page map. -/
def mapDelete (m : List (Nat × PageInfo)) (k : Nat) : List (Nat × PageInfo) :=
  m.filter (fun e => e.1 != k)

/-- Model of `Set.add` on the active-scrape set. -/
def setAdd (s : List Nat) (x : Nat) : List Nat :=
  if x ∈ s then s else s ++ [x]

/-- Model of `Set.delete` on the active-scrape set. -/
def setDelete (s : List Nat) (x : Nat) : List Nat :=
  s.filter (fun y => y != x)

/-- Errors thrown by the pool methods. `capacity` is the admission error of
line 519, `exhausted` the pool-exhaustion error of line 533, `launchFailed`
the rethrown `puppeteer.launch` error (line 508), `pageOpenFailed` the
`TypeError` raised by calling `newPage()` on a null browser handle. -/
inductive PoolErr
  | capacity
  | exhausted
  | launchFailed
  | pageOpenFailed
  deriving DecidableEq

/-- Environment of one `initialize()` call: whether `puppeteer.launch`
succeeds, the identity of the launched browser, and `Date.now()` at launch
completion (line 503). -/
structure LaunchEnv where
  ok : Bool
  newBid : Nat
  now : Nat
  deriving DecidableEq

/-- Model of `initialize()` (lines 435-514) run atomically (sequential layer).
The name `initialize` itself is not usable as a Lean identifier here, hence
`initPool`.

* already-initializing branch (lines 436-442): the caller polls until the
  flag clears and then returns `this.browser`.  In the sequential layer no
  other task can clear the flag, but the branch is also unreachable from
  `mkPool` (the flag is false in every sequentially reachable state, see
  `seqInv_runOps`); it is modelled as returning the current handle.
* disconnected-browser branch (lines 444-447): clear the handle.
* reuse branch (lines 449-452): return the existing handle, no launch.
* launch (lines 454-513): on success set the handle and the health-check
  timestamp; on failure clear the handle and rethrow; `finally` clears the
  initializing flag in both cases.

The disconnected-browser check of lines 444-447 is factored out as
`clearIfDisconnected`. -/
def clearIfDisconnected (st : PoolState) : PoolState :=
  match st.browser with
  | some b => if b.connected then st else { st with browser := none }
  | none => st

def initPool (st : PoolState) (env : LaunchEnv) : PoolState × Option PoolErr :=
  if st.isInitializing then
    (st, none)
  else
    match (clearIfDisconnected st).browser with
    | some _ => (clearIfDisconnected st, none)
    | none =>
      if env.ok then
        ({ clearIfDisconnected st with
            browser := some ⟨env.newBid, true⟩,
            lastHealthCheck := env.now,
            isInitializing := false }, none)
      else
        ({ clearIfDisconnected st with
            browser := none,
            isInitializing := false },
         some PoolErr.launchFailed)

/-- The wait-for-slot polling loop of `acquirePage` (lines 526-530):
`while (pages.size >= maxPages && waitCount < 30) { await sleep(1000);
waitCount++ }`.  `fullAt k` is the value of `pages.size >= maxPages` as read
at the `k`-th check; the function returns the final `waitCount`. -/
def slotWaitLoop (fullAt : Nat → Bool) (waitCount : Nat) : Nat :=
  if h : fullAt waitCount = true ∧ waitCount < 30 then
    slotWaitLoop fullAt (waitCount + 1)
  else
    waitCount
termination_by 30 - waitCount
decreasing_by
  obtain ⟨-, h2⟩ := h
  omega

/-- Total milliseconds slept in the wait-for-slot loop (1000 ms per
iteration, line 528). -/
def slotWaitTotalMs (fullAt : Nat → Bool) : Nat :=
  1000 * slotWaitLoop fullAt 0

/-- Environment of one `acquirePage` call: the launch environment of the
nested `initialize()`, the random page id (line 538), `Date.now()` at
registration (line 543), whether `process.env.TWITTER_COOKIES` is set
(line 570), how many entries of it survive the parse/filter of
`loadCookies` (lines 584-601; 0 when parsing fails or the blob is in string
format), and whether the `page.setCookie` call of line 604 — a CDP call
that can reject even on filter-surviving cookies — resolves. -/
structure AcquireEnv where
  launch : LaunchEnv
  newPid : Nat
  now : Nat
  cookieEnvPresent : Bool
  validCookies : Nat
  setCookieOk : Bool
  deriving DecidableEq

/-- Successful result of `acquirePage` (line 575), together with whether
the call performed a successful cookie injection (`loadCookies` returned
`true`, line 607). -/
structure AcquireOk where
  pageId : Nat
  injected : Bool
  deriving DecidableEq

/-- Model of `loadCookies(page)` (lines 578-615): when the cookie blob is
present and at least one parsed cookie has name/value/domain,
`page.setCookie` is invoked (line 604); if it resolves, `cookiesLoaded` is
set and `true` is returned (lines 605-607), while a rejection is swallowed
by the catch at line 610 and the flag stays unset; in every other case the
state is untouched and `false` is returned. -/
def loadCookies (st : PoolState) (env : AcquireEnv) : PoolState × Bool :=
  if env.cookieEnvPresent && decide (0 < env.validCookies) then
    if env.setCookieOk then
      ({ st with cookiesLoaded := true }, true)
    else
      (st, false)
  else
    (st, false)

/-- Model of `acquirePage(scrapeId)` (lines 516-576) run atomically (sequential
layer).

* admission gate (lines 518-520): fail fast when the active-scrape set is at
  `maxConcurrentScrapes`.
* `await this.initialize()` (line 522).
* wait-for-slot (lines 524-535): in the sequential layer no release can
  interleave, so the page-map size is constant during the loop and the
  post-loop recheck (line 532) sees the same fullness; the loop itself is
  factored out as `slotWaitLoop`.
* `browser.newPage()` on a null handle throws.
* registration (lines 540-547): insert the lease, add the scrape id.
* cookie injection (lines 570-572). -/
def acquirePage (st : PoolState) (sid : Nat) (env : AcquireEnv) :
    PoolState × Except PoolErr AcquireOk :=
  if st.maxConcurrentScrapes ≤ st.activeScrapes.length then
    (st, Except.error PoolErr.capacity)
  else
    match initPool st env.launch with
    | (st1, some e) => (st1, Except.error e)
    | (st1, none) =>
      if st1.maxPages ≤ st1.pages.length then
        (st1, Except.error PoolErr.exhausted)
      else
        match st1.browser with
        | none => (st1, Except.error PoolErr.pageOpenFailed)
        | some _ =>
          let st2 := { st1 with
            pages := mapSet st1.pages env.newPid ⟨sid, env.now, true⟩,
            activeScrapes := setAdd st1.activeScrapes sid }
          if !st2.cookiesLoaded && env.cookieEnvPresent then
            let r := loadCookies st2 env
            (r.1, Except.ok ⟨env.newPid, r.2⟩)
          else
            (st2, Except.ok ⟨env.newPid, false⟩)

/-- Model of `releasePage(pageId, scrapeId)` (lines 617-630).  Unknown lease: no-op
(line 619).  Otherwise `page.close()` runs inside try/catch — `closeFails`
records whether it threw, which affects nothing but a log line — and then
the lease and the *passed* scrape id are removed unconditionally
(lines 627-628).  The method has no throwing path, so it returns a plain
state. -/
def releasePage (st : PoolState) (pageId sid : Nat) (closeFails : Bool) :
    PoolState :=
  match mapGet st.pages pageId with
  | none => st
  | some _ =>
    { st with pages := mapDelete st.pages pageId,
              activeScrapes := setDelete st.activeScrapes sid }

/-- The `disconnected` event handler registered at lines 494-500: clear the
handle, the page map, the cookies flag and the active-scrape set, all in one
synchronous block. -/
def onDisconnected (st : PoolState) : PoolState :=
  { st with browser := none, pages := [], cookiesLoaded := false,
            activeScrapes := [] }

/-- The stale-page sweep of `healthCheck` (lines 641-648): walk the page-map
entries and force-release every lease older than 10 minutes
(`age > 10 * 60 * 1000`), passing the stored owning scrape id. -/
def staleSweep (st : PoolState) (now : Nat) (entries : List (Nat × PageInfo)) :
    PoolState :=
  match entries with
  | [] => st
  | (pid, info) :: rest =>
    staleSweep
      (if 10 * 60 * 1000 < now - info.created then
        releasePage st pid info.scrapeId false
      else st) now rest

/-- Environment of one `restart()` call: the fresh instance id (line 673),
the launch environment of the final `initialize()` (line 676), and whether
`browser.close()` threw (ignored, lines 659-665). -/
structure RestartEnv where
  newIid : Nat
  launch : LaunchEnv
  closeFails : Bool
  deriving DecidableEq

/-- Model of `restart()` (lines 656-677): close the browser ignoring errors, reset
all bookkeeping, assign a fresh instance id, re-run `initialize()`. -/
def restart (st : PoolState) (env : RestartEnv) : PoolState × Option PoolErr :=
  initPool
    { st with browser := none, pages := [], cookiesLoaded := false,
              activeScrapes := [], instanceId := env.newIid }
    env.launch

/-- Environment of one `healthCheck()` call: `Date.now()`, whether
`browser.version()` succeeded, and the restart environment used when it did
not. -/
structure HealthEnv where
  now : Nat
  versionOk : Bool
  restartEnv : RestartEnv
  deriving DecidableEq

/-- Model of `healthCheck()` (lines 632-654): no-op when the pool has no browser
handle; on a successful liveness probe record the timestamp and sweep stale
leases; on a failed probe run `restart()` (whose own error, if any, escapes
into the timer callback and does not change pool state further). -/
def healthCheck (st : PoolState) (env : HealthEnv) : PoolState :=
  match st.browser with
  | none => st
  | some _ =>
    if env.versionOk then
      staleSweep { st with lastHealthCheck := env.now } env.now
        ({ st with lastHealthCheck := env.now }).pages
    else
      (restart st env.restartEnv).1

/-- One atomically-executed pool entry point of the sequential layer. -/
inductive SeqOp
  | acquire (sid : Nat) (env : AcquireEnv)
  | release (pageId sid : Nat) (closeFails : Bool)
  | health (env : HealthEnv)
  | restartOp (env : RestartEnv)
  | initOp (env : LaunchEnv)
  | disconnect

/-- Apply one sequential operation (errors are reported to the caller and
leave the returned state). -/
def applyOp (st : PoolState) (op : SeqOp) : PoolState :=
  match op with
  | .acquire sid env => (acquirePage st sid env).1
  | .release p s b => releasePage st p s b
  | .health env => healthCheck st env
  | .restartOp env => (restart st env).1
  | .initOp env => (initPool st env).1
  | .disconnect => onDisconnected st

/-- Run a sequence of sequential operations from a state. -/
def runOps (st : PoolState) (ops : List SeqOp) : PoolState :=
  ops.foldl applyOp st

/-- Invariant of sequentially reachable pool states. -/
def SeqInv (st : PoolState) : Prop :=
  st.isInitializing = false
  ∧ st.pages.length ≤ st.maxPages
  ∧ st.activeScrapes.length ≤ st.maxConcurrentScrapes
  ∧ (st.browser = none → st.pages = [] ∧ st.activeScrapes = [])
  ∧ (∀ b, st.browser = some b → b.connected = true)

/-!
## Interleaved layer 1: concurrent `initialize()` calls

One thread per `initialize()` call, no `acquirePage` threads and no
disconnect events (the scenario of spec §8: "`initialize()` called N times
concurrently").  Atomic segments of lines 435-514:

* entry block (no `await` from function entry to the first suspension):
  either observe `isInitializing` and enter the polling wait (line 439),
  or return the existing connected handle (lines 449-452), or set
  `isInitializing` and suspend on `puppeteer.launch` (lines 454-492);
* wake-up of the polling wait with the flag cleared: return `this.browser`
  (line 441);
* completion of the launch: store the handle, clear the flag, return it
  (lines 492-513) — or, in the failure-enabled relation `FStep`, clear the
  handle, clear the flag and rethrow (lines 505-511).
-/

deriving instance DecidableEq for Except

/-- Program counter of one in-flight `initialize()` call.  `idone r` holds
the call's outcome: `Except.error` when the call rethrew the launch error,
`Except.ok h` when it returned handle `h` (`h = none` is possible: line 441
returns `this.browser` whatever it is). -/
inductive IPC
  | entry
  | waiting
  | launching
  | idone (r : Except PoolErr (Option Nat))
  deriving DecidableEq

/-- Shared state plus threads for the concurrent-`initialize` system.
`launches` counts `puppeteer.launch` invocations, `failures` counts launch
failures.  The browser handle is just its identity: with no disconnect
events a present handle is always connected, so the disconnected-handle
branch of lines 444-447 cannot fire and is elided. -/
structure ICfg where
  browser : Option Nat
  isInitializing : Bool
  launches : Nat
  failures : Nat
  threads : List IPC
  deriving DecidableEq

/-- Model of `n` concurrent `initialize()` calls against a freshly constructed pool. -/
def mkICfg (n : Nat) : ICfg where
  browser := none
  isInitializing := false
  launches := 0
  failures := 0
  threads := List.replicate n IPC.entry

/-- Small-step relation of the concurrent-`initialize` system, launches
always succeeding. -/
inductive IStep : ICfg → ICfg → Prop
  | entryWait (c : ICfg) (i : Nat)
      (h : c.threads.get? i = some IPC.entry)
      (hi : c.isInitializing = true) :
      IStep c { c with threads := c.threads.set i IPC.waiting }
  | entryReuse (c : ICfg) (i b : Nat)
      (h : c.threads.get? i = some IPC.entry)
      (hi : c.isInitializing = false)
      (hb : c.browser = some b) :
      IStep c { c with
        threads := c.threads.set i (IPC.idone (Except.ok (some b))) }
  | entryLaunch (c : ICfg) (i : Nat)
      (h : c.threads.get? i = some IPC.entry)
      (hi : c.isInitializing = false)
      (hb : c.browser = none) :
      IStep c { c with
        isInitializing := true,
        launches := c.launches + 1,
        threads := c.threads.set i IPC.launching }
  | waitDone (c : ICfg) (i : Nat)
      (h : c.threads.get? i = some IPC.waiting)
      (hi : c.isInitializing = false) :
      IStep c { c with
        threads := c.threads.set i (IPC.idone (Except.ok c.browser)) }
  | launchDone (c : ICfg) (i : Nat)
      (h : c.threads.get? i = some IPC.launching) :
      IStep c { c with
        browser := some c.launches,
        isInitializing := false,
        threads := c.threads.set i (IPC.idone (Except.ok (some c.launches))) }

/-- Small-step relation with launch failure enabled (lines 505-511): the
failing launcher clears the handle, clears the flag and rethrows. -/
inductive FStep : ICfg → ICfg → Prop
  | base {c c' : ICfg} (h : IStep c c') : FStep c c'
  | launchFail (c : ICfg) (i : Nat)
      (h : c.threads.get? i = some IPC.launching) :
      FStep c { c with
        browser := none,
        isInitializing := false,
        failures := c.failures + 1,
        threads := c.threads.set i (IPC.idone (Except.error PoolErr.launchFailed)) }

/-- Reachability for the success-only `initialize` system. -/
abbrev IReach : ICfg → ICfg → Prop := Relation.ReflTransGen IStep

/-- Reachability for the failure-enabled `initialize` system. -/
abbrev FReach : ICfg → ICfg → Prop := Relation.ReflTransGen FStep

/-- The guarantee claimed for concurrent `initialize()` calls: at most one
launch in progress, at most one launch ever, and every completed call got
the (unique) launched, now-present handle. -/
def InitGuarantee (c : ICfg) : Prop :=
  (∀ i j, c.threads.get? i = some IPC.launching →
      c.threads.get? j = some IPC.launching → i = j)
  ∧ c.launches ≤ 1
  ∧ (∀ i r, c.threads.get? i = some (IPC.idone r) →
      c.launches = 1 ∧ ∃ b, r = Except.ok (some b) ∧ c.browser = some b)

/-!
## Interleaved layer 2: concurrent `acquirePage` / `releasePage` calls

One thread per in-flight call.  Atomic segments are the code regions between
`await` suspension points of lines 516-576 and 617-630; the page
configuration and cookie-loading awaits after lease registration are
collapsed into a single `configuring → acqDone` segment (their effects are
irrelevant to the page map and the scrape set).  The browser `disconnected`
event (lines 494-500) may fire at any moment while a handle is present and
runs its handler as one synchronous block.
-/

/-- Program counter of one in-flight `acquirePage` or `releasePage` call. -/
inductive APC
  | start
  | initWaiting
  | launching
  | afterInit (br : Option Browser)
  | slotWaiting (br : Option Browser) (waitCount : Nat)
  | pageOpening (b : Browser)
  | configuring (pageId : Nat)
  | acqDone (pageId : Nat)
  | acqFailed (e : PoolErr)
  | relStart (pageId : Nat)
  | relClosing (pageId : Nat)
  | relDone
  deriving DecidableEq

/-- One thread: the scrape id passed to the call, and its program counter. -/
structure AThread where
  sid : Nat
  pc : APC
  deriving DecidableEq

/-- Pool state plus in-flight threads. -/
structure ACfg where
  pool : PoolState
  threads : List AThread
  deriving DecidableEq

/-- Small-step relation for interleaved `acquirePage`/`releasePage` calls. -/
inductive AStep : ACfg → ACfg → Prop
  /-- Lines 518-520: the admission gate trips; the call fails without
  suspending. -/
  | gateFail (c : ACfg) (i sid : Nat)
      (h : c.threads.get? i = some ⟨sid, APC.start⟩)
      (hs : c.pool.maxConcurrentScrapes ≤ c.pool.activeScrapes.length) :
      AStep c { c with
        threads := c.threads.set i ⟨sid, APC.acqFailed PoolErr.capacity⟩ }
  /-- Gate passes; `initialize()` entry sees `isInitializing` and suspends in
  the polling wait (lines 436-439). -/
  | gateToInitWait (c : ACfg) (i sid : Nat)
      (h : c.threads.get? i = some ⟨sid, APC.start⟩)
      (hs : c.pool.activeScrapes.length < c.pool.maxConcurrentScrapes)
      (hi : c.pool.isInitializing = true) :
      AStep c { c with threads := c.threads.set i ⟨sid, APC.initWaiting⟩ }
  /-- Gate passes; `initialize()` returns the existing connected handle
  (lines 449-452); the awaiting caller resumes in a later microtask. -/
  | gateToReuse (c : ACfg) (i sid : Nat) (b : Browser)
      (h : c.threads.get? i = some ⟨sid, APC.start⟩)
      (hs : c.pool.activeScrapes.length < c.pool.maxConcurrentScrapes)
      (hi : c.pool.isInitializing = false)
      (hb : c.pool.browser = some b)
      (hc : b.connected = true) :
      AStep c { c with threads := c.threads.set i ⟨sid, APC.afterInit (some b)⟩ }
  /-- Gate passes; `initialize()` finds no (connected) handle, clears it
  (lines 444-447), sets `isInitializing` (line 454) and suspends on
  `puppeteer.launch` (line 492). -/
  | gateToLaunch (c : ACfg) (i sid : Nat)
      (h : c.threads.get? i = some ⟨sid, APC.start⟩)
      (hs : c.pool.activeScrapes.length < c.pool.maxConcurrentScrapes)
      (hi : c.pool.isInitializing = false)
      (hb : c.pool.browser = none ∨
            ∃ b, c.pool.browser = some b ∧ b.connected = false) :
      AStep c { pool := { c.pool with
                  browser := none,
                  isInitializing := true },
                threads := c.threads.set i ⟨sid, APC.launching⟩ }
  /-- `puppeteer.launch` resolves (lines 492-513): store the handle, record
  the health-check timestamp, clear the flag, return the handle. -/
  | launchOk (c : ACfg) (i sid bid t : Nat)
      (h : c.threads.get? i = some ⟨sid, APC.launching⟩) :
      AStep c { pool := { c.pool with
                  browser := some ⟨bid, true⟩,
                  isInitializing := false,
                  lastHealthCheck := t },
                threads := c.threads.set i ⟨sid, APC.afterInit (some ⟨bid, true⟩)⟩ }
  /-- `puppeteer.launch` rejects (lines 505-511): clear handle and flag,
  rethrow; `acquirePage` does not catch, so the call fails. -/
  | launchFail (c : ACfg) (i sid : Nat)
      (h : c.threads.get? i = some ⟨sid, APC.launching⟩) :
      AStep c { pool := { c.pool with
                  browser := none,
                  isInitializing := false },
                threads := c.threads.set i ⟨sid, APC.acqFailed PoolErr.launchFailed⟩ }
  /-- A poll of the initialization wait (line 439) wakes with the flag
  cleared: the waiter returns the *current* `this.browser` (line 441). -/
  | initWaitDone (c : ACfg) (i sid : Nat)
      (h : c.threads.get? i = some ⟨sid, APC.initWaiting⟩)
      (hi : c.pool.isInitializing = false) :
      AStep c { c with
        threads := c.threads.set i ⟨sid, APC.afterInit c.pool.browser⟩ }
  /-- Back in `acquirePage` with a handle: the page map is below `maxPages`
  (line 524), so the call proceeds to `browser.newPage()` and suspends
  (line 537). -/
  | afterInitOpen (c : ACfg) (i sid : Nat) (b : Browser)
      (h : c.threads.get? i = some ⟨sid, APC.afterInit (some b)⟩)
      (hp : c.pool.pages.length < c.pool.maxPages) :
      AStep c { c with threads := c.threads.set i ⟨sid, APC.pageOpening b⟩ }
  /-- Back in `acquirePage` with a null handle (possible via line 441 after
  a failed launch): `browser.newPage()` throws immediately. -/
  | afterInitNull (c : ACfg) (i sid : Nat)
      (h : c.threads.get? i = some ⟨sid, APC.afterInit none⟩)
      (hp : c.pool.pages.length < c.pool.maxPages) :
      AStep c { c with
        threads := c.threads.set i ⟨sid, APC.acqFailed PoolErr.pageOpenFailed⟩ }
  /-- The page map is full (line 524): enter the wait-for-slot loop and
  sleep (lines 526-528). -/
  | afterInitFull (c : ACfg) (i sid : Nat) (br : Option Browser)
      (h : c.threads.get? i = some ⟨sid, APC.afterInit br⟩)
      (hp : c.pool.maxPages ≤ c.pool.pages.length) :
      AStep c { c with threads := c.threads.set i ⟨sid, APC.slotWaiting br 0⟩ }
  /-- A sleep of the wait-for-slot loop ends; still full and attempts
  remain: sleep again (lines 527-529). -/
  | slotTick (c : ACfg) (i sid w : Nat) (br : Option Browser)
      (h : c.threads.get? i = some ⟨sid, APC.slotWaiting br w⟩)
      (hp : c.pool.maxPages ≤ c.pool.pages.length)
      (hw : w + 1 < 30) :
      AStep c { c with threads := c.threads.set i ⟨sid, APC.slotWaiting br (w + 1)⟩ }
  /-- The loop exits still-full after its 30 attempts: exhaustion error
  (lines 532-534). -/
  | slotExhausted (c : ACfg) (i sid w : Nat) (br : Option Browser)
      (h : c.threads.get? i = some ⟨sid, APC.slotWaiting br w⟩)
      (hp : c.pool.maxPages ≤ c.pool.pages.length)
      (hw : ¬ w + 1 < 30) :
      AStep c { c with
        threads := c.threads.set i ⟨sid, APC.acqFailed PoolErr.exhausted⟩ }
  /-- A slot freed while waiting: proceed to `browser.newPage()`. -/
  | slotFreed (c : ACfg) (i sid w : Nat) (b : Browser)
      (h : c.threads.get? i = some ⟨sid, APC.slotWaiting (some b) w⟩)
      (hp : c.pool.pages.length < c.pool.maxPages) :
      AStep c { c with threads := c.threads.set i ⟨sid, APC.pageOpening b⟩ }
  /-- A slot freed but the held handle is null: `newPage()` throws. -/
  | slotFreedNull (c : ACfg) (i sid w : Nat)
      (h : c.threads.get? i = some ⟨sid, APC.slotWaiting none w⟩)
      (hp : c.pool.pages.length < c.pool.maxPages) :
      AStep c { c with
        threads := c.threads.set i ⟨sid, APC.acqFailed PoolErr.pageOpenFailed⟩ }
  /-- `newPage()` resolves: register the lease and the scrape id in one
  synchronous block (lines 538-547), then suspend on page configuration. -/
  | openDone (c : ACfg) (i sid pid t : Nat) (b : Browser)
      (h : c.threads.get? i = some ⟨sid, APC.pageOpening b⟩) :
      AStep c { pool := { c.pool with
                  pages := mapSet c.pool.pages pid ⟨sid, t, true⟩,
                  activeScrapes := setAdd c.pool.activeScrapes sid },
                threads := c.threads.set i ⟨sid, APC.configuring pid⟩ }
  /-- Page configuration / cookie loading finish: the call returns
  (lines 549-575, collapsed). -/
  | configDone (c : ACfg) (i sid pid : Nat)
      (h : c.threads.get? i = some ⟨sid, APC.configuring pid⟩) :
      AStep c { c with threads := c.threads.set i ⟨sid, APC.acqDone pid⟩ }
  /-- `releasePage` on an unknown lease: immediate no-op return (line 619). -/
  | relUnknown (c : ACfg) (i sid pid : Nat)
      (h : c.threads.get? i = some ⟨sid, APC.relStart pid⟩)
      (hm : mapGet c.pool.pages pid = none) :
      AStep c { c with threads := c.threads.set i ⟨sid, APC.relDone⟩ }
  /-- `releasePage` on a known lease: suspend on `page.close()`
  (lines 621-625). -/
  | relClose (c : ACfg) (i sid pid : Nat)
      (h : c.threads.get? i = some ⟨sid, APC.relStart pid⟩)
      (hm : mapGet c.pool.pages pid ≠ none) :
      AStep c { c with threads := c.threads.set i ⟨sid, APC.relClosing pid⟩ }
  /-- `page.close()` settles (successfully or not — errors are swallowed):
  delete the lease and the scrape id in one synchronous block
  (lines 627-628). -/
  | relFinish (c : ACfg) (i sid pid : Nat)
      (h : c.threads.get? i = some ⟨sid, APC.relClosing pid⟩) :
      AStep c { pool := { c.pool with
                  pages := mapDelete c.pool.pages pid,
                  activeScrapes := setDelete c.pool.activeScrapes sid },
                threads := c.threads.set i ⟨sid, APC.relDone⟩ }
  /-- The browser process dies and the `disconnected` handler runs
  (lines 494-500). -/
  | disconnected (c : ACfg) (b : Browser)
      (hb : c.pool.browser = some b) :
      AStep c { pool := { c.pool with
                  browser := none,
                  pages := [],
                  cookiesLoaded := false,
                  activeScrapes := [] },
                threads := c.threads }

/-- Reachability for the interleaved acquire/release system. -/
abbrev AReach : ACfg → ACfg → Prop := Relation.ReflTransGen AStep

/-- Four concurrent `acquirePage` calls with distinct scrape ids against a
fresh pool. -/
def aInitFour : ACfg where
  pool := mkPool 0 0
  threads := [⟨1, APC.start⟩, ⟨2, APC.start⟩, ⟨3, APC.start⟩, ⟨4, APC.start⟩]

/-- One `acquirePage` call against a fresh pool. -/
def aInitOne : ACfg where
  pool := mkPool 0 0
  threads := [⟨1, APC.start⟩]

/-- Inductive invariant of the success-only concurrent-`initialize` system
(strengthening of `InitGuarantee`). -/
def IInv (c : ICfg) : Prop :=
  (c.isInitializing = false → ∀ i, c.threads.get? i ≠ some IPC.launching)
  ∧ (∀ i j, c.threads.get? i = some IPC.launching →
      c.threads.get? j = some IPC.launching → i = j)
  ∧ c.launches ≤ 1
  ∧ (c.isInitializing = true → c.launches = 1 ∧ c.browser = none)
  ∧ (∀ b, c.browser = some b → c.launches = 1 ∧ c.isInitializing = false)
  ∧ (c.launches = 1 → c.isInitializing = true ∨ c.browser.isSome)
  ∧ (∀ i, c.threads.get? i = some IPC.waiting → c.launches = 1)
  ∧ (∀ i r, c.threads.get? i = some (IPC.idone r) →
      ∃ b, r = Except.ok (some b) ∧ c.browser = some b)

/-!
## Theorems
-/

/-- Lemma: `l.set i a` leaves positions other than `i` unchanged. -/
theorem listGetSetNe {α : Type} (l : List α) (i j : Nat) (a : α) (hne : i ≠ j) :
    (l.set i a).get? j = l.get? j := by
  induction l generalizing i j with
  | nil => rfl
  | cons e rest ih =>
    cases i with
    | zero =>
      cases j with
      | zero => exact absurd rfl hne
      | succ j => rfl
    | succ i =>
      cases j with
      | zero => rfl
      | succ j => exact ih i j (fun h => hne (by rw [h]))

/-- Lemma: `l.set i a` writes `a` at position `i` when `i` is in bounds. -/
theorem listGetSetSelf {α : Type} (l : List α) (i : Nat) (a b : α)
    (h : l.get? i = some b) : (l.set i a).get? i = some a := by
  induction l generalizing i with
  | nil => simp [List.get?] at h
  | cons e rest ih =>
    cases i with
    | zero => rfl
    | succ i => exact ih i h

/-- C1, counterexample.  Four concurrent `acquirePage` calls with distinct
scrape ids against a fresh pool: all four pass the admission gate (line 518)
while the scrape set is still empty, all four pass the page-map fullness
check (line 524) while the map is still empty, and all four then register
their lease after their `newPage()` suspension (lines 540-547).  The reached
state has 4 pages (`maxPages = 3`) and 4 active scrapes
(`maxConcurrentScrapes = 2`): the claimed bounds do not hold under every
interleaving of the suspension points. -/
theorem c1_interleaved_bound_violation :
    ∃ c, AReach aInitFour c
      ∧ c.pool.maxPages < c.pool.pages.length
      ∧ c.pool.maxConcurrentScrapes < c.pool.activeScrapes.length := by
  have hchain := (Relation.ReflTransGen.refl : AReach aInitFour aInitFour)
      |>.tail (AStep.gateToLaunch _ 0 1 rfl (by decide) rfl (Or.inl rfl))
      |>.tail (AStep.gateToInitWait _ 1 2 rfl (by decide) rfl)
      |>.tail (AStep.gateToInitWait _ 2 3 rfl (by decide) rfl)
      |>.tail (AStep.gateToInitWait _ 3 4 rfl (by decide) rfl)
      |>.tail (AStep.launchOk _ 0 1 7 0 rfl)
      |>.tail (AStep.initWaitDone _ 1 2 rfl rfl)
      |>.tail (AStep.initWaitDone _ 2 3 rfl rfl)
      |>.tail (AStep.initWaitDone _ 3 4 rfl rfl)
      |>.tail (AStep.afterInitOpen _ 0 1 ⟨7, true⟩ rfl (by decide))
      |>.tail (AStep.afterInitOpen _ 1 2 ⟨7, true⟩ rfl (by decide))
      |>.tail (AStep.afterInitOpen _ 2 3 ⟨7, true⟩ rfl (by decide))
      |>.tail (AStep.afterInitOpen _ 3 4 ⟨7, true⟩ rfl (by decide))
      |>.tail (AStep.openDone _ 0 1 10 0 ⟨7, true⟩ rfl)
      |>.tail (AStep.openDone _ 1 2 11 0 ⟨7, true⟩ rfl)
      |>.tail (AStep.openDone _ 2 3 12 0 ⟨7, true⟩ rfl)
      |>.tail (AStep.openDone _ 3 4 13 0 ⟨7, true⟩ rfl)
  exact ⟨_, hchain, by decide, by decide⟩

/-- C3, counterexample.  One `acquirePage` call is suspended on
`browser.newPage()` (line 537) when the browser disconnects; the handler
(lines 494-500) resets the pool, but the resumed call then registers its
lease (lines 540-547).  The reached state has an absent browser handle
together with a non-empty page map and a non-empty active-scrape set, so
neither "handle absent implies both collections empty" nor "after a
disconnect the state stays fully reset regardless of in-flight acquires"
holds. -/
theorem c3_inflight_acquire_breaks_reset :
    ∃ c, AReach aInitOne c
      ∧ c.pool.browser = none
      ∧ c.pool.pages ≠ []
      ∧ c.pool.activeScrapes ≠ [] := by
  have hchain := (Relation.ReflTransGen.refl : AReach aInitOne aInitOne)
      |>.tail (AStep.gateToLaunch _ 0 1 rfl (by decide) rfl (Or.inl rfl))
      |>.tail (AStep.launchOk _ 0 1 5 0 rfl)
      |>.tail (AStep.afterInitOpen _ 0 1 ⟨5, true⟩ rfl (by decide))
      |>.tail (AStep.disconnected _ ⟨5, true⟩ rfl)
      |>.tail (AStep.openDone _ 0 1 9 0 ⟨5, true⟩ rfl)
  exact ⟨_, hchain, by decide, by decide, by decide⟩

/-- Deleting key `k` makes `Map.get k` return `undefined`. -/
theorem mapGet_mapDelete_self (m : List (Nat × PageInfo)) (k : Nat) :
    mapGet (mapDelete m k) k = none := by
  simp only [mapGet, mapDelete, Option.map_eq_none']
  rw [List.find?_eq_none]
  intro e he
  have h2 := (List.mem_filter.mp he).2
  simp only [bne_iff_ne, ne_eq] at h2
  simp [h2]

/-- Deleting an absent key is a no-op. -/
theorem mapDelete_of_none (m : List (Nat × PageInfo)) (k : Nat)
    (h : mapGet m k = none) : mapDelete m k = m := by
  simp only [mapGet, Option.map_eq_none'] at h
  rw [List.find?_eq_none] at h
  unfold mapDelete
  rw [List.filter_eq_self]
  intro e he
  have := h e he
  simpa [bne_iff_ne] using this

/-- Lemma: `releasePage` always leaves the page map equal to a key deletion (the
unknown-lease no-op coincides with deleting an absent key). -/
theorem releasePage_pages (st : PoolState) (p s : Nat) (cb : Bool) :
    (releasePage st p s cb).pages = mapDelete st.pages p := by
  unfold releasePage
  cases h : mapGet st.pages p with
  | none => exact (mapDelete_of_none st.pages p h).symm
  | some v => rfl

/-- Deleting key `k` does not affect `Map.get j` for `j ≠ k`. -/
theorem mapGet_mapDelete_ne (m : List (Nat × PageInfo)) (k j : Nat)
    (hne : j ≠ k) : mapGet (mapDelete m k) j = mapGet m j := by
  have hkj : ¬ k = j := fun h => hne h.symm
  induction m with
  | nil => rfl
  | cons e rest ih =>
    by_cases h1 : e.1 = k
    · have hj : (e.1 == j) = false := by simp [h1, hkj]
      simp only [mapDelete, List.filter] at ih ⊢
      simp only [h1, bne_self_eq_false]
      simp only [mapGet, List.find?, hj] at ih ⊢
      exact ih
    · simp only [mapDelete, List.filter] at ih ⊢
      have : (e.1 != k) = true := by simp [h1]
      rw [this]
      by_cases h2 : e.1 = j
      · simp [mapGet, List.find?, h2]
      · have hj : (e.1 == j) = false := by simp [h2]
        simp only [mapGet, List.find?, hj] at ih ⊢
        exact ih

/-- Setting a fresh key makes `Map.get` return the new value. -/
theorem mapGet_mapSet_self_of_none (m : List (Nat × PageInfo)) (k : Nat)
    (v : PageInfo) (h : mapGet m k = none) :
    mapGet (mapSet m k v) k = some v := by
  simp only [mapGet, Option.map_eq_none'] at h
  unfold mapSet
  rw [h]
  simp only [Option.isSome_none, Bool.false_eq_true, if_false]
  rw [List.find?_eq_none] at h
  induction m with
  | nil => simp [mapGet, List.find?]
  | cons e rest ih =>
    have he : (e.1 == k) = false := by
      have := h e (by simp)
      simpa using this
    simp only [List.cons_append, mapGet, List.find?, he] at ih ⊢
    exact ih (fun x hx => h x (by simp [hx]))

/-- Setting key `k` does not affect `Map.get j` for `j ≠ k`. -/
theorem mapGet_mapReplace_ne (m : List (Nat × PageInfo)) (k j : Nat)
    (v : PageInfo) (hne : j ≠ k) :
    mapGet (m.map (fun e => if e.1 == k then (k, v) else e)) j = mapGet m j := by
  have hkj : ¬ k = j := fun h => hne h.symm
  induction m with
  | nil => rfl
  | cons e rest ih =>
    by_cases h1 : e.1 = k
    · have hkjb : ((k, v).1 == j) = false := by simp [hkj]
      have hej : (e.1 == j) = false := by simp [h1, hkj]
      simp only [List.map, mapGet, List.find?, h1, beq_self_eq_true,
        if_true, hkjb, hej] at ih ⊢
      exact ih
    · have h1b : (e.1 == k) = false := by simp [h1]
      have hfne : (if (e.1 == k) = true then (k, v) else e) = e := by
        simp [h1b]
      by_cases h2 : e.1 = j
      · have h2b : (e.1 == j) = true := by simp [h2]
        rw [List.map_cons, hfne]
        simp [mapGet, List.find?, h2b]
      · have h2b : (e.1 == j) = false := by simp [h2]
        rw [List.map_cons, hfne]
        simp only [mapGet, List.find?, h2b] at ih ⊢
        exact ih

theorem mapGet_append_ne (m : List (Nat × PageInfo)) (k j : Nat)
    (v : PageInfo) (hne : j ≠ k) :
    mapGet (m ++ [(k, v)]) j = mapGet m j := by
  have hkj : ¬ k = j := fun h => hne h.symm
  induction m with
  | nil =>
    have hkjb : ((k, v).1 == j) = false := by simp [hkj]
    simp [mapGet, List.find?, hkjb]
  | cons e rest ih =>
    by_cases h2 : e.1 = j
    · simp [mapGet, List.find?, h2]
    · have h2b : (e.1 == j) = false := by simp [h2]
      simp only [List.cons_append, mapGet, List.find?, h2b] at ih ⊢
      exact ih

/-- Setting key `k` does not affect `Map.get j` for `j ≠ k`. -/
theorem mapGet_mapSet_ne (m : List (Nat × PageInfo)) (k j : Nat)
    (v : PageInfo) (hne : j ≠ k) : mapGet (mapSet m k v) j = mapGet m j := by
  unfold mapSet
  split
  · exact mapGet_mapReplace_ne m k j v hne
  · exact mapGet_append_ne m k j v hne

/-- Lemma: `Map.set` grows the map by at most one entry. -/
theorem length_mapSet (m : List (Nat × PageInfo)) (k : Nat) (v : PageInfo) :
    (mapSet m k v).length ≤ m.length + 1 := by
  unfold mapSet
  split
  · simp
  · simp

/-- Setting a fresh key grows the map by exactly one entry. -/
theorem length_mapSet_of_none (m : List (Nat × PageInfo)) (k : Nat)
    (v : PageInfo) (h : mapGet m k = none) :
    (mapSet m k v).length = m.length + 1 := by
  simp only [mapGet, Option.map_eq_none'] at h
  unfold mapSet
  rw [h]
  simp

/-- Lemma: `Map.delete` never grows the map. -/
theorem length_mapDelete (m : List (Nat × PageInfo)) (k : Nat) :
    (mapDelete m k).length ≤ m.length :=
  List.length_filter_le _ _

/-- Lemma: `Set.add` grows the set by at most one member. -/
theorem length_setAdd (s : List Nat) (x : Nat) :
    (setAdd s x).length ≤ s.length + 1 := by
  unfold setAdd
  split
  · omega
  · simp

/-- Lemma: `Set.add` of a member already present is a no-op. -/
theorem setAdd_of_mem (s : List Nat) (x : Nat) (h : x ∈ s) :
    setAdd s x = s := by
  simp [setAdd, h]

/-- Lemma: `Set.delete` removes the member. -/
theorem not_mem_setDelete (s : List Nat) (x : Nat) :
    x ∉ setDelete s x := by
  intro h
  have := (List.mem_filter.mp h).2
  simp at this

/-- Lemma: `Set.delete` never grows the set. -/
theorem length_setDelete (s : List Nat) (x : Nat) :
    (setDelete s x).length ≤ s.length :=
  List.length_filter_le _ _

/-- A successful `Map.get` exhibits a member of the map. -/
theorem mapGet_mem (m : List (Nat × PageInfo)) (k : Nat) (v : PageInfo)
    (h : mapGet m k = some v) : (k, v) ∈ m := by
  simp only [mapGet] at h
  cases hf : m.find? (fun e => e.1 == k) with
  | none => rw [hf] at h; simp at h
  | some e =>
    rw [hf] at h
    simp only [Option.map_some'] at h
    have hmem := List.mem_of_find?_eq_some hf
    have hp := List.find?_some hf
    simp only [beq_iff_eq] at hp
    have : e = (k, v) := by
      cases e
      simp only at hp
      simp only [Prod.mk.injEq] at h ⊢
      exact ⟨hp, by simpa using h⟩
    rwa [this] at hmem

/-- With duplicate-free keys, membership determines `Map.get`. -/
theorem mapGet_of_mem_nodup (m : List (Nat × PageInfo)) (k : Nat)
    (v : PageInfo) (hnd : (m.map Prod.fst).Nodup) (hm : (k, v) ∈ m) :
    mapGet m k = some v := by
  induction m with
  | nil => simp at hm
  | cons e rest ih =>
    simp only [List.map, List.nodup_cons] at hnd
    rcases List.mem_cons.mp hm with he | hrest
    · simp [mapGet, List.find?, ← he]
    · have hne : (e.1 == k) = false := by
        have : k ∈ rest.map Prod.fst :=
          List.mem_map.mpr ⟨(k, v), hrest, rfl⟩
        have : e.1 ≠ k := fun h => hnd.1 (h ▸ this)
        simp [this]
      simp only [mapGet, List.find?, hne]
      exact ih hnd.2 hrest

/-- When the present handle is connected (as in every sequentially reachable
state), the disconnected-browser check of lines 444-447 is a no-op. -/
theorem clearIfDisconnected_eq (st : PoolState)
    (hco : ∀ b, st.browser = some b → b.connected = true) :
    clearIfDisconnected st = st := by
  unfold clearIfDisconnected
  cases hb : st.browser with
  | none => rfl
  | some b => simp [hco b hb]

/-- Reuse path of `initialize()` (lines 449-452): a connected handle is
returned as-is and the state is untouched. -/
theorem initPool_eq_reuse (st : PoolState) (env : LaunchEnv) (b : Browser)
    (h1 : st.isInitializing = false) (hb : st.browser = some b)
    (hc : b.connected = true) : initPool st env = (st, none) := by
  have hcl : clearIfDisconnected st = st := by
    unfold clearIfDisconnected
    rw [hb]
    simp [hc]
  unfold initPool
  rw [h1, hcl, hb]
  simp

/-- Successful launch path of `initialize()` (lines 454-503). -/
theorem initPool_eq_launch_ok (st : PoolState) (env : LaunchEnv)
    (h1 : st.isInitializing = false) (hb : st.browser = none)
    (hok : env.ok = true) :
    initPool st env =
      ({ st with browser := some ⟨env.newBid, true⟩,
                 lastHealthCheck := env.now,
                 isInitializing := false }, none) := by
  have hcl : clearIfDisconnected st = st := by
    unfold clearIfDisconnected
    rw [hb]
  unfold initPool
  rw [h1, hcl, hb, hok]
  simp

/-- Failed launch path of `initialize()` (lines 505-511). -/
theorem initPool_eq_launch_fail (st : PoolState) (env : LaunchEnv)
    (h1 : st.isInitializing = false) (hb : st.browser = none)
    (hok : env.ok = false) :
    initPool st env =
      ({ st with browser := none, isInitializing := false },
       some PoolErr.launchFailed) := by
  have hcl : clearIfDisconnected st = st := by
    unfold clearIfDisconnected
    rw [hb]
  unfold initPool
  rw [h1, hcl, hb, hok]
  simp

/-- Lemma: `initialize()` preserves the invariant, does not touch the page map, the
scrape set, the limits or the cookie flag, and returns a present handle on
success. -/
theorem initPool_spec (st : PoolState) (env : LaunchEnv) (h : SeqInv st) :
    SeqInv (initPool st env).1
    ∧ (initPool st env).1.pages = st.pages
    ∧ (initPool st env).1.activeScrapes = st.activeScrapes
    ∧ (initPool st env).1.maxPages = st.maxPages
    ∧ (initPool st env).1.maxConcurrentScrapes = st.maxConcurrentScrapes
    ∧ (initPool st env).1.cookiesLoaded = st.cookiesLoaded
    ∧ ((initPool st env).2 = none → (initPool st env).1.browser.isSome) := by
  obtain ⟨h1, h2, h3, h4, h5⟩ := h
  cases hb : st.browser with
  | some b =>
    rw [initPool_eq_reuse st env b h1 hb (h5 b hb)]
    exact ⟨⟨h1, h2, h3, h4, h5⟩, rfl, rfl, rfl, rfl, rfl, fun _ => by simp [hb]⟩
  | none =>
    cases hok : env.ok with
    | true =>
      rw [initPool_eq_launch_ok st env h1 hb hok]
      refine ⟨⟨rfl, h2, h3, ?_, ?_⟩, rfl, rfl, rfl, rfl, rfl, fun _ => by simp⟩
      · intro hcontra
        simp at hcontra
      · intro b' hbb
        simp only [Option.some.injEq] at hbb
        rw [← hbb]
    | false =>
      rw [initPool_eq_launch_fail st env h1 hb hok]
      refine ⟨⟨rfl, h2, h3, fun _ => h4 hb, ?_⟩, rfl, rfl, rfl, rfl, rfl, ?_⟩
      · intro b' hbb
        simp at hbb
      · intro hcontra
        simp at hcontra

/-- Admission-gate failure path of `acquirePage` (lines 518-520). -/
theorem acquirePage_eq_capacity (st : PoolState) (sid : Nat) (env : AcquireEnv)
    (hgate : st.maxConcurrentScrapes ≤ st.activeScrapes.length) :
    acquirePage st sid env = (st, Except.error PoolErr.capacity) := by
  unfold acquirePage
  rw [if_pos hgate]

/-- Lemma: `initialize()`-error path of `acquirePage` (line 522). -/
theorem acquirePage_eq_initErr (st : PoolState) (sid : Nat) (env : AcquireEnv)
    (st1 : PoolState) (e : PoolErr)
    (hgate : ¬ st.maxConcurrentScrapes ≤ st.activeScrapes.length)
    (hres : initPool st env.launch = (st1, some e)) :
    acquirePage st sid env = (st1, Except.error e) := by
  unfold acquirePage
  rw [if_neg hgate, hres]

/-- Exhaustion path of `acquirePage` (lines 524-535): the wait window elapses
with the page map still full (sequentially, the size cannot change during
the wait). -/
theorem acquirePage_eq_exhausted (st : PoolState) (sid : Nat) (env : AcquireEnv)
    (st1 : PoolState)
    (hgate : ¬ st.maxConcurrentScrapes ≤ st.activeScrapes.length)
    (hres : initPool st env.launch = (st1, none))
    (hfull : st1.maxPages ≤ st1.pages.length) :
    acquirePage st sid env = (st1, Except.error PoolErr.exhausted) := by
  unfold acquirePage
  rw [if_neg hgate, hres]
  dsimp only
  rw [if_pos hfull]

/-- Null-handle path of `acquirePage`: `browser.newPage()` throws. -/
theorem acquirePage_eq_openNull (st : PoolState) (sid : Nat) (env : AcquireEnv)
    (st1 : PoolState)
    (hgate : ¬ st.maxConcurrentScrapes ≤ st.activeScrapes.length)
    (hres : initPool st env.launch = (st1, none))
    (hroom : ¬ st1.maxPages ≤ st1.pages.length)
    (hb : st1.browser = none) :
    acquirePage st sid env = (st1, Except.error PoolErr.pageOpenFailed) := by
  unfold acquirePage
  rw [if_neg hgate, hres]
  dsimp only
  rw [if_neg hroom, hb]

/-- Registration path of `acquirePage` (lines 537-575): insert the lease,
add the scrape id, then run the cookie branch of lines 570-572. -/
theorem acquirePage_eq_insert (st : PoolState) (sid : Nat) (env : AcquireEnv)
    (st1 : PoolState) (b : Browser)
    (hgate : ¬ st.maxConcurrentScrapes ≤ st.activeScrapes.length)
    (hres : initPool st env.launch = (st1, none))
    (hroom : ¬ st1.maxPages ≤ st1.pages.length)
    (hb : st1.browser = some b) :
    acquirePage st sid env =
      (if (!st1.cookiesLoaded && env.cookieEnvPresent) = true then
        ((loadCookies { st1 with
            pages := mapSet st1.pages env.newPid ⟨sid, env.now, true⟩,
            activeScrapes := setAdd st1.activeScrapes sid } env).1,
         Except.ok ⟨env.newPid,
          (loadCookies { st1 with
            pages := mapSet st1.pages env.newPid ⟨sid, env.now, true⟩,
            activeScrapes := setAdd st1.activeScrapes sid } env).2⟩)
      else
        ({ st1 with
            pages := mapSet st1.pages env.newPid ⟨sid, env.now, true⟩,
            activeScrapes := setAdd st1.activeScrapes sid },
         Except.ok ⟨env.newPid, false⟩)) := by
  unfold acquirePage
  rw [if_neg hgate, hres]
  dsimp only
  rw [if_neg hroom, hb]

/-- Lemma: `acquirePage` preserves the invariant (sequential layer). -/
theorem acquirePage_inv (st : PoolState) (sid : Nat) (env : AcquireEnv)
    (h : SeqInv st) : SeqInv (acquirePage st sid env).1 := by
  by_cases hgate : st.maxConcurrentScrapes ≤ st.activeScrapes.length
  · rw [acquirePage_eq_capacity st sid env hgate]
    exact h
  · obtain ⟨hs1, hpg, hsc, hmp, hmc, hck, hbs⟩ := initPool_spec st env.launch h
    rcases hres : initPool st env.launch with ⟨st1, oe⟩
    rw [hres] at hs1 hsc hmc
    have hs1' : SeqInv st1 := hs1
    have hsc' : st1.activeScrapes = st.activeScrapes := hsc
    have hmc' : st1.maxConcurrentScrapes = st.maxConcurrentScrapes := hmc
    cases oe with
    | some e =>
      rw [acquirePage_eq_initErr st sid env st1 e hgate hres]
      exact hs1'
    | none =>
      by_cases hroom : st1.maxPages ≤ st1.pages.length
      · rw [acquirePage_eq_exhausted st sid env st1 hgate hres hroom]
        exact hs1'
      · cases hb : st1.browser with
        | none =>
          rw [acquirePage_eq_openNull st sid env st1 hgate hres hroom hb]
          exact hs1'
        | some b =>
          rw [acquirePage_eq_insert st sid env st1 b hgate hres hroom hb]
          obtain ⟨g1, g2, g3, g4, g5⟩ := hs1'
          have hst2 : SeqInv { st1 with
              pages := mapSet st1.pages env.newPid ⟨sid, env.now, true⟩,
              activeScrapes := setAdd st1.activeScrapes sid } := by
            refine ⟨g1, ?_, ?_, ?_, ?_⟩
            · calc (mapSet st1.pages env.newPid ⟨sid, env.now, true⟩).length
                  ≤ st1.pages.length + 1 := length_mapSet _ _ _
                _ ≤ st1.maxPages := by omega
            · calc (setAdd st1.activeScrapes sid).length
                  ≤ st1.activeScrapes.length + 1 := length_setAdd _ _
                _ ≤ st1.maxConcurrentScrapes := by
                    rw [hsc', hmc']
                    omega
            · intro hbb
              have hbb' : st1.browser = none := hbb
              rw [hb] at hbb'
              exact absurd hbb' (by simp)
            · intro b' hbb
              have hbb' : st1.browser = some b' := hbb
              rw [hb] at hbb'
              have heq : b = b' := by injection hbb'
              rw [← heq]
              exact g5 b hb
          by_cases hcook : (!st1.cookiesLoaded && env.cookieEnvPresent) = true
          · rw [if_pos hcook]
            show SeqInv (loadCookies _ env).1
            unfold loadCookies
            split
            · split
              · exact ⟨hst2.1, hst2.2.1, hst2.2.2.1, hst2.2.2.2.1,
                  hst2.2.2.2.2⟩
              · exact hst2
            · exact hst2
          · rw [if_neg hcook]
            exact hst2

/-- Lemma: `releasePage` preserves the invariant. -/
theorem releasePage_inv (st : PoolState) (p s : Nat) (cb : Bool)
    (h : SeqInv st) : SeqInv (releasePage st p s cb) := by
  unfold releasePage
  cases hm : mapGet st.pages p with
  | none => exact h
  | some v =>
    obtain ⟨h1, h2, h3, h4, h5⟩ := h
    refine ⟨h1, le_trans (length_mapDelete _ _) h2,
      le_trans (length_setDelete _ _) h3, ?_, h5⟩
    intro hb
    obtain ⟨hp, hs⟩ := h4 hb
    exact ⟨by rw [hp]; rfl, by rw [hs]; rfl⟩

/-- The `disconnected` handler establishes the invariant outright. -/
theorem onDisconnected_inv (st : PoolState) (h : SeqInv st) :
    SeqInv (onDisconnected st) := by
  refine ⟨h.1, by simp [onDisconnected], by simp [onDisconnected],
    fun _ => ⟨rfl, rfl⟩, ?_⟩
  intro b hb
  simp [onDisconnected] at hb

/-- Lemma: `restart()` preserves the invariant. -/
theorem restart_inv (st : PoolState) (env : RestartEnv) (h : SeqInv st) :
    SeqInv (restart st env).1 := by
  unfold restart
  refine (initPool_spec _ env.launch ?_).1
  refine ⟨h.1, by simp, by simp, fun _ => ⟨rfl, rfl⟩, ?_⟩
  intro b hb
  simp at hb

/-- The stale-page sweep preserves the invariant. -/
theorem staleSweep_inv (now : Nat) (entries : List (Nat × PageInfo))
    (st : PoolState) (h : SeqInv st) : SeqInv (staleSweep st now entries) := by
  induction entries generalizing st with
  | nil => exact h
  | cons e rest ih =>
    rcases e with ⟨pid, info⟩
    show SeqInv (staleSweep _ now rest)
    apply ih
    split
    · exact releasePage_inv _ _ _ _ h
    · exact h

/-- Lemma: `healthCheck()` is a no-op when the pool holds no browser handle
(line 633). -/
theorem healthCheck_eq_none (st : PoolState) (env : HealthEnv)
    (hb : st.browser = none) : healthCheck st env = st := by
  unfold healthCheck
  rw [hb]

/-- Successful-probe path of `healthCheck()` (lines 636-648). -/
theorem healthCheck_eq_ok (st : PoolState) (env : HealthEnv) (b : Browser)
    (hb : st.browser = some b) (hv : env.versionOk = true) :
    healthCheck st env =
      staleSweep { st with lastHealthCheck := env.now } env.now
        ({ st with lastHealthCheck := env.now }).pages := by
  unfold healthCheck
  rw [hb, hv]
  simp

/-- Failed-probe path of `healthCheck()` (lines 650-653). -/
theorem healthCheck_eq_fail (st : PoolState) (env : HealthEnv) (b : Browser)
    (hb : st.browser = some b) (hv : env.versionOk = false) :
    healthCheck st env = (restart st env.restartEnv).1 := by
  unfold healthCheck
  rw [hb, hv]
  simp

/-- Lemma: `healthCheck()` preserves the invariant. -/
theorem healthCheck_inv (st : PoolState) (env : HealthEnv) (h : SeqInv st) :
    SeqInv (healthCheck st env) := by
  cases hb : st.browser with
  | none =>
    rw [healthCheck_eq_none st env hb]
    exact h
  | some b =>
    cases hv : env.versionOk with
    | true =>
      rw [healthCheck_eq_ok st env b hb hv]
      exact staleSweep_inv _ _ _ ⟨h.1, h.2.1, h.2.2.1, h.2.2.2.1, h.2.2.2.2⟩
    | false =>
      rw [healthCheck_eq_fail st env b hb hv]
      exact restart_inv st env.restartEnv h

/-- Every sequential pool entry point preserves the invariant. -/
theorem applyOp_inv (st : PoolState) (op : SeqOp) (h : SeqInv st) :
    SeqInv (applyOp st op) := by
  cases op with
  | acquire sid env => exact acquirePage_inv st sid env h
  | release p s cb => exact releasePage_inv st p s cb h
  | health env => exact healthCheck_inv st env h
  | restartOp env => exact restart_inv st env h
  | initOp env => exact (initPool_spec st env h).1
  | disconnect => exact onDisconnected_inv st h

/-- The invariant holds in every sequentially reachable pool state. -/
theorem seqInv_runOps (iid t0 : Nat) (ops : List SeqOp) :
    SeqInv (runOps (mkPool iid t0) ops) := by
  have hbase : SeqInv (mkPool iid t0) := by
    refine ⟨rfl, by simp [mkPool], by simp [mkPool], fun _ => ⟨rfl, rfl⟩, ?_⟩
    intro b hb
    simp [mkPool] at hb
  suffices hgen : ∀ (l : List SeqOp) (st : PoolState), SeqInv st →
      SeqInv (runOps st l) from hgen ops _ hbase
  intro l
  induction l with
  | nil => exact fun st h => h
  | cons op rest ih => exact fun st h => ih _ (applyOp_inv st op h)

/-- C1, amended.  For every sequence of (atomically executed) pool
operations — `acquirePage` and `releasePage` calls (including releases whose
page-close step fails), plus `initialize`, `healthCheck`, `restart` and
disconnect events — run from a fresh pool, the page map never holds more
than `maxPages` entries and the active-scrape set never holds more than
`maxConcurrentScrapes` entries.  (The unamended claim quantified over all
interleavings of the suspension points; the interleaved counterexample
above refutes that.) -/
theorem c1_sequential_bounds (iid t0 : Nat) (ops : List SeqOp) :
    (runOps (mkPool iid t0) ops).pages.length
      ≤ (runOps (mkPool iid t0) ops).maxPages
    ∧ (runOps (mkPool iid t0) ops).activeScrapes.length
      ≤ (runOps (mkPool iid t0) ops).maxConcurrentScrapes := by
  have h := seqInv_runOps iid t0 ops
  exact ⟨h.2.1, h.2.2.1⟩

/-- C3, amended.  In every sequentially reachable pool state, an absent
browser handle implies an empty page map and an empty active-scrape set;
and the `disconnected` handler itself always leaves the pool fully reset
(handle absent, page map empty, active-scrape set empty, cookies flag
false).  (The unamended claim extended this to states with `acquirePage`
calls in flight across the disconnect; the interleaved counterexample
above refutes that.) -/
theorem c3_sequential_reset (iid t0 : Nat) (ops : List SeqOp) (st : PoolState) :
    ((runOps (mkPool iid t0) ops).browser = none →
      (runOps (mkPool iid t0) ops).pages = []
      ∧ (runOps (mkPool iid t0) ops).activeScrapes = [])
    ∧ (onDisconnected st).browser = none
    ∧ (onDisconnected st).pages = []
    ∧ (onDisconnected st).activeScrapes = []
    ∧ (onDisconnected st).cookiesLoaded = false := by
  have h := seqInv_runOps iid t0 ops
  exact ⟨h.2.2.2.1, rfl, rfl, rfl, rfl⟩

/-- Witness for `c3_sequential_reset` at a concrete input. -/
theorem c3_sequential_reset_witness :
    (runOps (mkPool 0 0) [SeqOp.disconnect]).pages = []
    ∧ (onDisconnected (mkPool 5 7)).cookiesLoaded = false := by
  have h := c3_sequential_reset 0 0 [SeqOp.disconnect] (mkPool 5 7)
  exact ⟨(h.1 rfl).1, h.2.2.2.2⟩

/-- C4.  For every known lease released with its owning operation id, the
lease leaves the page map and the operation id leaves the active-scrape set,
identically whether or not the underlying `page.close()` threw (the close
error is swallowed; `releasePage` is a total state transformer with no
throwing path). -/
theorem c4_release_unconditional (st : PoolState) (pid sid : Nat)
    (info : PageInfo) (cb : Bool)
    (hknown : mapGet st.pages pid = some info)
    (hown : info.scrapeId = sid) :
    mapGet (releasePage st pid sid cb).pages pid = none
    ∧ sid ∉ (releasePage st pid sid cb).activeScrapes
    ∧ releasePage st pid sid true = releasePage st pid sid false := by
  refine ⟨?_, ?_, rfl⟩
  · rw [releasePage_pages]
    exact mapGet_mapDelete_self st.pages pid
  · unfold releasePage
    rw [hknown]
    exact not_mem_setDelete st.activeScrapes sid

/-- Witness for `c4_release_unconditional` at a concrete input. -/
theorem c4_release_unconditional_witness :
    mapGet (releasePage
      { mkPool 0 0 with browser := some ⟨1, true⟩,
                        pages := [(9, ⟨4, 0, true⟩)],
                        activeScrapes := [4] } 9 4 true).pages 9 = none := by
  exact (c4_release_unconditional
    { mkPool 0 0 with browser := some ⟨1, true⟩,
                      pages := [(9, ⟨4, 0, true⟩)],
                      activeScrapes := [4] } 9 4 ⟨4, 0, true⟩ true rfl rfl).1

/-- Lemma: `releasePage` on an unknown lease id is an exact no-op (line 619). -/
theorem releasePage_of_unknown (st : PoolState) (pid sid : Nat) (cb : Bool)
    (hu : mapGet st.pages pid = none) : releasePage st pid sid cb = st := by
  unfold releasePage
  rw [hu]

/-- C5.  `releasePage` is idempotent: on an unknown lease it is an exact
no-op (it never throws — it is a total state transformer — and removes
nothing from the page map or the active-scrape set), and a repeated release
of the same lease id leaves the state of the first release unchanged,
whatever scrape id or close outcome the second call has. -/
theorem c5_release_idempotent (st : PoolState) (pid sid sid' : Nat)
    (cb cb' : Bool) :
    (mapGet st.pages pid = none → releasePage st pid sid cb = st)
    ∧ releasePage (releasePage st pid sid cb) pid sid' cb'
        = releasePage st pid sid cb := by
  refine ⟨releasePage_of_unknown st pid sid cb, ?_⟩
  apply releasePage_of_unknown
  rw [releasePage_pages]
  exact mapGet_mapDelete_self st.pages pid

/-- Witness for `c5_release_idempotent` at a concrete input. -/
theorem c5_release_idempotent_witness :
    releasePage (mkPool 0 0) 3 1 false = mkPool 0 0
    ∧ releasePage (releasePage
        { mkPool 0 0 with pages := [(3, ⟨1, 0, true⟩)], activeScrapes := [1] }
        3 1 false) 3 1 true
      = releasePage
        { mkPool 0 0 with pages := [(3, ⟨1, 0, true⟩)], activeScrapes := [1] }
        3 1 false := by
  constructor
  · exact (c5_release_idempotent (mkPool 0 0) 3 1 1 false false).1 rfl
  · exact (c5_release_idempotent
      { mkPool 0 0 with pages := [(3, ⟨1, 0, true⟩)], activeScrapes := [1] }
      3 1 1 false true).2

/-- When every poll still sees a full page map, the wait loop runs until
`waitCount = 30` (30 polls of 1000 ms from a cold start). -/
theorem slotWaitLoop_full (w : Nat) (hw : w ≤ 30) :
    slotWaitLoop (fun _ => true) w = 30 := by
  rw [slotWaitLoop]
  by_cases h : w < 30
  · rw [dif_pos ⟨rfl, h⟩]
    exact slotWaitLoop_full (w + 1) h
  · rw [dif_neg (fun hc => h hc.2)]
    omega
termination_by 30 - w
decreasing_by omega

/-- Whatever fullness the polls observe, the wait loop never runs past
`waitCount = 30`: it always terminates within the bound. -/
theorem slotWaitLoop_le (fullAt : Nat → Bool) (w : Nat) (hw : w ≤ 30) :
    slotWaitLoop fullAt w ≤ 30 := by
  rw [slotWaitLoop]
  by_cases h : fullAt w = true ∧ w < 30
  · rw [dif_pos h]
    exact slotWaitLoop_le fullAt (w + 1) h.2
  · rw [dif_neg h]
    exact hw
termination_by 30 - w
decreasing_by omega

/-- C7.  An `acquirePage` call that passes the admission gate while the page
map is at `maxPages`, with no release occurring during the wait, fails with
the exhaustion error and leaves the state unchanged; the wait loop makes
exactly 30 one-second polls before that (30000 ms ≈ 30 s — neither an
immediate failure nor an unbounded wait), and the loop terminates within 30
polls under every fullness sequence. -/
theorem c7_bounded_wait (st : PoolState) (sid : Nat) (env : AcquireEnv)
    (b : Browser)
    (hgate : ¬ st.maxConcurrentScrapes ≤ st.activeScrapes.length)
    (hinit : st.isInitializing = false)
    (hb : st.browser = some b)
    (hc : b.connected = true)
    (hfull : st.maxPages ≤ st.pages.length) :
    (acquirePage st sid env).2 = Except.error PoolErr.exhausted
    ∧ (acquirePage st sid env).1 = st
    ∧ slotWaitLoop (fun _ => true) 0 = 30
    ∧ slotWaitTotalMs (fun _ => true) = 30000
    ∧ (∀ fullAt : Nat → Bool, slotWaitLoop fullAt 0 ≤ 30) := by
  have hres : initPool st env.launch = (st, none) :=
    initPool_eq_reuse st env.launch b hinit hb hc
  have heq := acquirePage_eq_exhausted st sid env st hgate hres hfull
  refine ⟨by rw [heq], by rw [heq], slotWaitLoop_full 0 (by omega), ?_, ?_⟩
  · unfold slotWaitTotalMs
    rw [slotWaitLoop_full 0 (by omega)]
  · exact fun fullAt => slotWaitLoop_le fullAt 0 (by omega)

/-- Witness for `c7_bounded_wait` at a concrete input: a pool with all three
page slots taken and one active scrape. -/
theorem c7_bounded_wait_witness :
    (acquirePage
      { mkPool 0 0 with browser := some ⟨1, true⟩,
                        pages := [(1, ⟨1, 0, true⟩), (2, ⟨1, 0, true⟩),
                                  (3, ⟨1, 0, true⟩)],
                        activeScrapes := [1] } 7
      ⟨⟨true, 5, 0⟩, 9, 0, false, 0, true⟩).2 = Except.error PoolErr.exhausted
    ∧ slotWaitLoop (fun _ => true) 0 = 30 := by
  have h := c7_bounded_wait
    { mkPool 0 0 with browser := some ⟨1, true⟩,
                      pages := [(1, ⟨1, 0, true⟩), (2, ⟨1, 0, true⟩),
                                (3, ⟨1, 0, true⟩)],
                      activeScrapes := [1] } 7
    ⟨⟨true, 5, 0⟩, 9, 0, false, 0, true⟩ ⟨1, true⟩
    (by decide) rfl rfl rfl (by decide)
  exact ⟨h.1, h.2.2.1⟩

/-- Lemma: `releasePage` never touches the handle, the health-check timestamp or
the cookie flag. -/
theorem releasePage_misc (st : PoolState) (p s : Nat) (cb : Bool) :
    (releasePage st p s cb).browser = st.browser
    ∧ (releasePage st p s cb).lastHealthCheck = st.lastHealthCheck
    ∧ (releasePage st p s cb).cookiesLoaded = st.cookiesLoaded := by
  unfold releasePage
  cases mapGet st.pages p with
  | none => exact ⟨rfl, rfl, rfl⟩
  | some v => exact ⟨rfl, rfl, rfl⟩

/-- The stale-page sweep never touches the handle, the health-check
timestamp or the cookie flag. -/
theorem staleSweep_misc (now : Nat) (entries : List (Nat × PageInfo))
    (st : PoolState) :
    (staleSweep st now entries).browser = st.browser
    ∧ (staleSweep st now entries).lastHealthCheck = st.lastHealthCheck
    ∧ (staleSweep st now entries).cookiesLoaded = st.cookiesLoaded := by
  induction entries generalizing st with
  | nil => exact ⟨rfl, rfl, rfl⟩
  | cons e rest ih =>
    rcases e with ⟨pid, info⟩
    rw [staleSweep]
    by_cases hstale : 10 * 60 * 1000 < now - info.created
    · rw [if_pos hstale]
      obtain ⟨ih1, ih2, ih3⟩ := ih (releasePage st pid info.scrapeId false)
      obtain ⟨r1, r2, r3⟩ := releasePage_misc st pid info.scrapeId false
      exact ⟨ih1.trans r1, ih2.trans r2, ih3.trans r3⟩
    · rw [if_neg hstale]
      exact ih st

/-- Any lease surviving the sweep was already present and has a key distinct
from every stale entry the sweep visited. -/
theorem staleSweep_get_some (now : Nat) (entries : List (Nat × PageInfo))
    (st : PoolState) (pid : Nat) (info : PageInfo)
    (h : mapGet (staleSweep st now entries).pages pid = some info) :
    mapGet st.pages pid = some info
    ∧ ∀ e ∈ entries, 10 * 60 * 1000 < now - e.2.created → pid ≠ e.1 := by
  induction entries generalizing st with
  | nil => exact ⟨h, by simp⟩
  | cons e rest ih =>
    rcases e with ⟨k, v⟩
    rw [staleSweep] at h
    by_cases hstale : 10 * 60 * 1000 < now - v.created
    · rw [if_pos hstale] at h
      obtain ⟨h1, h2⟩ := ih _ h
      rw [releasePage_pages] at h1
      have hpk : pid ≠ k := by
        intro hE
        rw [hE, mapGet_mapDelete_self] at h1
        exact Option.noConfusion h1
      rw [mapGet_mapDelete_ne st.pages k pid hpk] at h1
      refine ⟨h1, ?_⟩
      intro e' he' hstale'
      rcases List.mem_cons.mp he' with rfl | hmem
      · exact hpk
      · exact h2 e' hmem hstale'
    · rw [if_neg hstale] at h
      obtain ⟨h1, h2⟩ := ih _ h
      refine ⟨h1, ?_⟩
      intro e' he' hstale'
      rcases List.mem_cons.mp he' with rfl | hmem
      · exact absurd hstale' hstale
      · exact h2 e' hmem hstale'

/-- A lease whose key differs from every stale entry survives the sweep
untouched. -/
theorem staleSweep_get_keep (now : Nat) (entries : List (Nat × PageInfo))
    (st : PoolState) (pid : Nat) (info : PageInfo)
    (h : mapGet st.pages pid = some info)
    (hsafe : ∀ e ∈ entries, 10 * 60 * 1000 < now - e.2.created → pid ≠ e.1) :
    mapGet (staleSweep st now entries).pages pid = some info := by
  induction entries generalizing st with
  | nil => exact h
  | cons e rest ih =>
    rcases e with ⟨k, v⟩
    rw [staleSweep]
    by_cases hstale : 10 * 60 * 1000 < now - v.created
    · rw [if_pos hstale]
      apply ih
      · rw [releasePage_pages,
          mapGet_mapDelete_ne st.pages k pid (hsafe (k, v) (by simp) hstale)]
        exact h
      · intro e' he' hs'
        exact hsafe e' (List.mem_cons_of_mem _ he') hs'
    · rw [if_neg hstale]
      apply ih
      · exact h
      · intro e' he' hs'
        exact hsafe e' (List.mem_cons_of_mem _ he') hs'

/-- C9.  `healthCheck()` is a no-op when the pool has no browser handle;
with a handle present and a successful liveness probe it records the
health-check timestamp and force-releases exactly the stale leases: no
lease older than the 10-minute threshold survives the sweep, and every
younger lease is untouched. -/
theorem c9_health_sweep (st : PoolState) (env : HealthEnv) :
    (st.browser = none → healthCheck st env = st)
    ∧ (∀ b, st.browser = some b → env.versionOk = true →
        (st.pages.map Prod.fst).Nodup →
        (healthCheck st env).lastHealthCheck = env.now
        ∧ (∀ pid info, mapGet (healthCheck st env).pages pid = some info →
            env.now - info.created ≤ 10 * 60 * 1000)
        ∧ (∀ pid info, mapGet st.pages pid = some info →
            env.now - info.created ≤ 10 * 60 * 1000 →
            mapGet (healthCheck st env).pages pid = some info)) := by
  constructor
  · exact healthCheck_eq_none st env
  · intro b hb hv hnd
    rw [healthCheck_eq_ok st env b hb hv]
    refine ⟨?_, ?_, ?_⟩
    · exact (staleSweep_misc env.now _ _).2.1
    · intro pid info h
      obtain ⟨h1, h2⟩ := staleSweep_get_some env.now _ _ pid info h
      by_contra hstale
      push_neg at hstale
      have hmem : (pid, info) ∈ st.pages := mapGet_mem st.pages pid info h1
      exact h2 (pid, info) hmem hstale rfl
    · intro pid info h hfresh
      apply staleSweep_get_keep
      · exact h
      · intro e he hstale heq
        rcases e with ⟨k, v⟩
        have hg : mapGet st.pages k = some v :=
          mapGet_of_mem_nodup st.pages k v hnd he
        have heq' : pid = k := heq
        rw [← heq', h] at hg
        have hvi : info = v := by injection hg
        rw [← hvi] at hstale
        have hstale' : 10 * 60 * 1000 < env.now - info.created := hstale
        omega

/-- Witness for `c9_health_sweep`: a pool holding an 11-minute-old lease
(key 1) and a 10-second-old lease (key 2), probed successfully at
`now = 660000` ms.  The young lease survives with its record intact, the
timestamp is recorded, and the stale lease is gone. -/
theorem c9_health_sweep_witness :
    (healthCheck
      { mkPool 0 0 with browser := some ⟨1, true⟩,
                        pages := [(1, ⟨4, 0, true⟩), (2, ⟨5, 650000, true⟩)],
                        activeScrapes := [4, 5] }
      ⟨660000, true, ⟨0, ⟨true, 0, 0⟩, false⟩⟩).lastHealthCheck = 660000
    ∧ mapGet (healthCheck
      { mkPool 0 0 with browser := some ⟨1, true⟩,
                        pages := [(1, ⟨4, 0, true⟩), (2, ⟨5, 650000, true⟩)],
                        activeScrapes := [4, 5] }
      ⟨660000, true, ⟨0, ⟨true, 0, 0⟩, false⟩⟩).pages 2 = some ⟨5, 650000, true⟩
    ∧ mapGet (healthCheck
      { mkPool 0 0 with browser := some ⟨1, true⟩,
                        pages := [(1, ⟨4, 0, true⟩), (2, ⟨5, 650000, true⟩)],
                        activeScrapes := [4, 5] }
      ⟨660000, true, ⟨0, ⟨true, 0, 0⟩, false⟩⟩).pages 1 = none := by
  have h := (c9_health_sweep
    { mkPool 0 0 with browser := some ⟨1, true⟩,
                      pages := [(1, ⟨4, 0, true⟩), (2, ⟨5, 650000, true⟩)],
                      activeScrapes := [4, 5] }
    ⟨660000, true, ⟨0, ⟨true, 0, 0⟩, false⟩⟩).2 ⟨1, true⟩ rfl rfl (by decide)
  exact ⟨h.1, h.2.2 2 ⟨5, 650000, true⟩ rfl (by decide), by decide⟩

/-- Lemma: `loadCookies` touches only the cookie flag. -/
theorem loadCookies_fields (s : PoolState) (env : AcquireEnv) :
    (loadCookies s env).1.pages = s.pages
    ∧ (loadCookies s env).1.activeScrapes = s.activeScrapes := by
  unfold loadCookies
  split
  · split
    · exact ⟨rfl, rfl⟩
    · exact ⟨rfl, rfl⟩
  · exact ⟨rfl, rfl⟩

/-- Lemma: a rejected `page.setCookie` is swallowed (line 610): the state —
in particular the cookies-loaded flag — is untouched and `false` is
returned. -/
theorem loadCookies_of_setCookie_fail (s : PoolState) (env : AcquireEnv)
    (h : env.setCookieOk = false) : loadCookies s env = (s, false) := by
  unfold loadCookies
  rw [h]
  split
  · simp
  · rfl

/-- Lemma: `releasePage` on a known lease deletes the lease key and the passed
scrape id (lines 621-628). -/
theorem releasePage_of_known (st : PoolState) (p s : Nat) (cb : Bool)
    (v : PageInfo) (h : mapGet st.pages p = some v) :
    releasePage st p s cb =
      { st with pages := mapDelete st.pages p,
                activeScrapes := setDelete st.activeScrapes s } := by
  unfold releasePage
  rw [h]

/-- C10.  An operation id that already holds a lease is admitted again by
the gate (lines 518-520 check only the set's size, not membership): the
call registers a second lease under the same operation id while the
active-scrape set gains no entry (`Set.add` of a member is a no-op), and
the first `releasePage` of either of the two leases then removes the
operation id from the active-scrape set even though the operation's other
lease is still in the page map. -/
theorem c10_duplicate_operation (st : PoolState) (sid pidOld : Nat)
    (env : AcquireEnv) (infoOld : PageInfo) (b : Browser) (cb : Bool)
    (hheld : mapGet st.pages pidOld = some infoOld)
    (hmem : sid ∈ st.activeScrapes)
    (hgate : st.activeScrapes.length < st.maxConcurrentScrapes)
    (hroom : st.pages.length < st.maxPages)
    (hinit : st.isInitializing = false)
    (hb : st.browser = some b)
    (hc : b.connected = true)
    (hfresh : mapGet st.pages env.newPid = none)
    (hne : env.newPid ≠ pidOld) :
    (∃ r, (acquirePage st sid env).2 = Except.ok r ∧ r.pageId = env.newPid)
    ∧ (acquirePage st sid env).1.pages.length = st.pages.length + 1
    ∧ (acquirePage st sid env).1.activeScrapes = st.activeScrapes
    ∧ mapGet (acquirePage st sid env).1.pages env.newPid
        = some ⟨sid, env.now, true⟩
    ∧ mapGet (acquirePage st sid env).1.pages pidOld = some infoOld
    ∧ sid ∉ (releasePage (acquirePage st sid env).1 pidOld sid cb).activeScrapes
    ∧ mapGet (releasePage (acquirePage st sid env).1 pidOld sid cb).pages
        env.newPid = some ⟨sid, env.now, true⟩
    ∧ sid ∉ (releasePage (acquirePage st sid env).1 env.newPid sid
        cb).activeScrapes
    ∧ mapGet (releasePage (acquirePage st sid env).1 env.newPid sid
        cb).pages pidOld = some infoOld := by
  have hgate' : ¬ st.maxConcurrentScrapes ≤ st.activeScrapes.length := by omega
  have hroom' : ¬ st.maxPages ≤ st.pages.length := by omega
  have hres : initPool st env.launch = (st, none) :=
    initPool_eq_reuse st env.launch b hinit hb hc
  have heq := acquirePage_eq_insert st sid env st b hgate' hres hroom' hb
  rw [heq]
  have hpag : (if (!st.cookiesLoaded && env.cookieEnvPresent) = true then
        ((loadCookies { st with
            pages := mapSet st.pages env.newPid ⟨sid, env.now, true⟩,
            activeScrapes := setAdd st.activeScrapes sid } env).1,
         Except.ok (⟨env.newPid,
          (loadCookies { st with
            pages := mapSet st.pages env.newPid ⟨sid, env.now, true⟩,
            activeScrapes := setAdd st.activeScrapes sid } env).2⟩ : AcquireOk))
      else
        ({ st with
            pages := mapSet st.pages env.newPid ⟨sid, env.now, true⟩,
            activeScrapes := setAdd st.activeScrapes sid },
         Except.ok ⟨env.newPid, false⟩) :
        PoolState × Except PoolErr AcquireOk).1.pages
      = mapSet st.pages env.newPid ⟨sid, env.now, true⟩ := by
    split
    · exact (loadCookies_fields _ _).1
    · rfl
  have hscr : (if (!st.cookiesLoaded && env.cookieEnvPresent) = true then
        ((loadCookies { st with
            pages := mapSet st.pages env.newPid ⟨sid, env.now, true⟩,
            activeScrapes := setAdd st.activeScrapes sid } env).1,
         Except.ok (⟨env.newPid,
          (loadCookies { st with
            pages := mapSet st.pages env.newPid ⟨sid, env.now, true⟩,
            activeScrapes := setAdd st.activeScrapes sid } env).2⟩ : AcquireOk))
      else
        ({ st with
            pages := mapSet st.pages env.newPid ⟨sid, env.now, true⟩,
            activeScrapes := setAdd st.activeScrapes sid },
         Except.ok ⟨env.newPid, false⟩) :
        PoolState × Except PoolErr AcquireOk).1.activeScrapes
      = st.activeScrapes := by
    split
    · exact ((loadCookies_fields _ _).2).trans (setAdd_of_mem _ _ hmem)
    · exact setAdd_of_mem _ _ hmem
  have hgetNew : mapGet (mapSet st.pages env.newPid ⟨sid, env.now, true⟩)
      env.newPid = some ⟨sid, env.now, true⟩ :=
    mapGet_mapSet_self_of_none st.pages env.newPid _ hfresh
  have hgetOld : mapGet (mapSet st.pages env.newPid ⟨sid, env.now, true⟩)
      pidOld = some infoOld := by
    rw [mapGet_mapSet_ne st.pages env.newPid pidOld _ (Ne.symm hne)]
    exact hheld
  refine ⟨?_, ?_, hscr, ?_, ?_, ?_, ?_, ?_, ?_⟩
  · split
    · exact ⟨_, rfl, rfl⟩
    · exact ⟨_, rfl, rfl⟩
  · rw [hpag]
    exact length_mapSet_of_none st.pages env.newPid _ hfresh
  · rw [hpag]
    exact hgetNew
  · rw [hpag]
    exact hgetOld
  · rw [releasePage_of_known _ _ _ _ infoOld (by rw [hpag]; exact hgetOld)]
    rw [hscr]
    exact not_mem_setDelete st.activeScrapes sid
  · rw [releasePage_of_known _ _ _ _ infoOld (by rw [hpag]; exact hgetOld)]
    show mapGet (mapDelete _ pidOld) env.newPid = _
    rw [mapGet_mapDelete_ne _ pidOld env.newPid hne, hpag]
    exact hgetNew
  · rw [releasePage_of_known _ _ _ _ ⟨sid, env.now, true⟩
      (by rw [hpag]; exact hgetNew)]
    rw [hscr]
    exact not_mem_setDelete st.activeScrapes sid
  · rw [releasePage_of_known _ _ _ _ ⟨sid, env.now, true⟩
      (by rw [hpag]; exact hgetNew)]
    show mapGet (mapDelete _ env.newPid) pidOld = _
    rw [mapGet_mapDelete_ne _ env.newPid pidOld (Ne.symm hne), hpag]
    exact hgetOld

/-- Witness for `c10_duplicate_operation`: operation 4 already holds lease 5
and acquires a second lease 8; the set stays `[4]`, and releasing lease 5
removes operation 4 from the set while lease 8 is still in the map. -/
theorem c10_duplicate_operation_witness :
    (acquirePage
      { mkPool 0 0 with browser := some ⟨1, true⟩,
                        pages := [(5, ⟨4, 0, true⟩)],
                        activeScrapes := [4] } 4
      ⟨⟨true, 0, 0⟩, 8, 100, false, 0, true⟩).1.activeScrapes = [4]
    ∧ 4 ∉ (releasePage (acquirePage
      { mkPool 0 0 with browser := some ⟨1, true⟩,
                        pages := [(5, ⟨4, 0, true⟩)],
                        activeScrapes := [4] } 4
      ⟨⟨true, 0, 0⟩, 8, 100, false, 0, true⟩).1 5 4 false).activeScrapes
    ∧ mapGet (releasePage (acquirePage
      { mkPool 0 0 with browser := some ⟨1, true⟩,
                        pages := [(5, ⟨4, 0, true⟩)],
                        activeScrapes := [4] } 4
      ⟨⟨true, 0, 0⟩, 8, 100, false, 0, true⟩).1 5 4 false).pages 8
      = some ⟨4, 100, true⟩ := by
  have h := c10_duplicate_operation
    { mkPool 0 0 with browser := some ⟨1, true⟩,
                      pages := [(5, ⟨4, 0, true⟩)],
                      activeScrapes := [4] } 4 5
    ⟨⟨true, 0, 0⟩, 8, 100, false, 0, true⟩ ⟨4, 0, true⟩ ⟨1, true⟩ false
    rfl (by decide) (by decide) (by decide) rfl rfl rfl rfl (by decide)
  exact ⟨h.2.2.1, h.2.2.2.2.2.1, h.2.2.2.2.2.2.1⟩

/-- C8, counterexample.  The cookies-loaded flag is re-armed not only by
`restart()`: the browser `disconnected` handler (line 498) also resets it.
Concretely, one `acquirePage` with a valid cookie source sets the flag, and
a subsequent disconnect event — not a `restart()` call — clears it again. -/
theorem c8_disconnect_rearms_flag :
    (runOps (mkPool 0 0)
      [SeqOp.acquire 1 ⟨⟨true, 5, 0⟩, 9, 0, true, 2, true⟩]).cookiesLoaded = true
    ∧ (runOps (mkPool 0 0)
      [SeqOp.acquire 1 ⟨⟨true, 5, 0⟩, 9, 0, true, 2, true⟩,
       SeqOp.disconnect]).cookiesLoaded = false := by
  exact ⟨by decide, by decide⟩

/-- The disconnected-handle check never touches the cookie flag. -/
theorem clearIfDisconnected_cookies (st : PoolState) :
    (clearIfDisconnected st).cookiesLoaded = st.cookiesLoaded := by
  unfold clearIfDisconnected
  split
  · split
    · rfl
    · rfl
  · rfl

/-- Lemma: `initialize()` never touches the cookie flag (the flag is re-armed only
by the disconnect handler and by `restart()`'s reset, never by a launch). -/
theorem initPool_cookies (st : PoolState) (env : LaunchEnv) :
    (initPool st env).1.cookiesLoaded = st.cookiesLoaded := by
  unfold initPool
  split
  · rfl
  · split
    · exact clearIfDisconnected_cookies st
    · split
      · exact clearIfDisconnected_cookies st
      · exact clearIfDisconnected_cookies st

/-- C8, amended.  Cookie injection is one-shot per browser lifetime in the
following sense: while the cookies-loaded flag is set, no `acquirePage`
injects cookies and the flag stays set (and neither `releasePage` nor a
successful `healthCheck` clears it); while the flag is unset and a valid
cookie source is present, a successful `acquirePage` whose `page.setCookie`
call resolves injects and sets the flag (so only the first such acquire per
browser lifetime pays the cost) — whereas a rejected `page.setCookie` is
swallowed by the catch at line 610: the acquire still completes
successfully with no injection and the flag left unset, so a later acquire
retries; and the flag is re-armed (reset to false) by `restart()` *and* by
the browser `disconnected` handler — not by `restart()` alone, as the
unamended claim stated (see the counterexample above). -/
theorem c8_cookie_oneshot (st : PoolState) (sid p s : Nat) (env : AcquireEnv)
    (cb : Bool) (renv : RestartEnv) (henv : HealthEnv) :
    (st.cookiesLoaded = true →
      (acquirePage st sid env).1.cookiesLoaded = true
      ∧ (∀ r, (acquirePage st sid env).2 = Except.ok r → r.injected = false)
      ∧ (releasePage st p s cb).cookiesLoaded = true
      ∧ (∀ b, st.browser = some b → henv.versionOk = true →
          (healthCheck st henv).cookiesLoaded = true))
    ∧ (st.cookiesLoaded = false → env.cookieEnvPresent = true →
        0 < env.validCookies → env.setCookieOk = true →
        ∀ r, (acquirePage st sid env).2 = Except.ok r →
          r.injected = true ∧ (acquirePage st sid env).1.cookiesLoaded = true)
    ∧ (st.cookiesLoaded = false → env.setCookieOk = false →
        (acquirePage st sid env).1.cookiesLoaded = false
        ∧ (∀ r, (acquirePage st sid env).2 = Except.ok r →
            r.injected = false))
    ∧ (restart st renv).1.cookiesLoaded = false
    ∧ (onDisconnected st).cookiesLoaded = false := by
  refine ⟨?_, ?_, ?_, ?_, rfl⟩
  · intro hck
    refine ⟨?_, ?_, ?_, ?_⟩
    · unfold acquirePage
      split
      · exact hck
      · split
        next st1 e heq =>
          have hc := initPool_cookies st env.launch
          rw [heq] at hc
          exact hc.trans hck
        next st1 heq =>
          have hc1 : st1.cookiesLoaded = true := by
            have hc := initPool_cookies st env.launch
            rw [heq] at hc
            exact hc.trans hck
          split
          · exact hc1
          · split
            · exact hc1
            · dsimp only
              split
              next hcond =>
                exfalso
                have hcond' : (!st1.cookiesLoaded && env.cookieEnvPresent)
                    = true := hcond
                rw [hc1] at hcond'
                simp at hcond'
              next => exact hc1
    · intro r hr
      revert hr
      unfold acquirePage
      split
      · intro hr
        simp at hr
      · split
        next st1 e heq =>
          intro hr
          simp at hr
        next st1 heq =>
          have hc1 : st1.cookiesLoaded = true := by
            have hc := initPool_cookies st env.launch
            rw [heq] at hc
            exact hc.trans hck
          split
          · intro hr
            simp at hr
          · split
            · intro hr
              simp at hr
            · dsimp only
              split
              next hcond =>
                exfalso
                have hcond' : (!st1.cookiesLoaded && env.cookieEnvPresent)
                    = true := hcond
                rw [hc1] at hcond'
                simp at hcond'
              next =>
                intro hr
                have hr' : (⟨env.newPid, false⟩ : AcquireOk) = r := by
                  injection hr
                rw [← hr']
    · exact (releasePage_misc st p s cb).2.2.trans hck
    · intro b hb hv
      rw [healthCheck_eq_ok st henv b hb hv]
      exact ((staleSweep_misc henv.now _ _).2.2).trans hck
  · intro hck hpresent hvalid hsck r
    unfold acquirePage
    split
    · intro hr
      simp at hr
    · split
      next st1 e heq =>
        intro hr
        simp at hr
      next st1 heq =>
        have hc1 : st1.cookiesLoaded = false := by
          have hc := initPool_cookies st env.launch
          rw [heq] at hc
          exact hc.trans hck
        split
        · intro hr
          simp at hr
        · split
          · intro hr
            simp at hr
          · have hlc : loadCookies { st1 with
                pages := mapSet st1.pages env.newPid ⟨sid, env.now, true⟩,
                activeScrapes := setAdd st1.activeScrapes sid } env
                = ({ st1 with
                      pages := mapSet st1.pages env.newPid
                        ⟨sid, env.now, true⟩,
                      activeScrapes := setAdd st1.activeScrapes sid,
                      cookiesLoaded := true }, true) := by
              unfold loadCookies
              have h1 : (env.cookieEnvPresent
                  && decide (0 < env.validCookies)) = true := by
                simp [hpresent, hvalid]
              rw [h1, hsck]
              simp
            dsimp only
            split
            next =>
              rw [hlc]
              intro hr
              have hr' : (⟨env.newPid, true⟩ : AcquireOk) = r := by
                injection hr
              exact ⟨by rw [← hr'], rfl⟩
            next hcond =>
              exfalso
              apply hcond
              have : (!st1.cookiesLoaded && env.cookieEnvPresent) = true := by
                rw [hc1, hpresent]
                rfl
              exact this
  · intro hck hsck
    constructor
    · unfold acquirePage
      split
      · exact hck
      · split
        next st1 e heq =>
          have hc := initPool_cookies st env.launch
          rw [heq] at hc
          exact hc.trans hck
        next st1 heq =>
          have hc1 : st1.cookiesLoaded = false := by
            have hc := initPool_cookies st env.launch
            rw [heq] at hc
            exact hc.trans hck
          split
          · exact hc1
          · split
            · exact hc1
            · dsimp only
              split
              next =>
                rw [loadCookies_of_setCookie_fail _ env hsck]
                exact hc1
              next => exact hc1
    · intro r
      unfold acquirePage
      split
      · intro hr
        simp at hr
      · split
        next st1 e heq =>
          intro hr
          simp at hr
        next st1 heq =>
          split
          · intro hr
            simp at hr
          · split
            · intro hr
              simp at hr
            · dsimp only
              split
              next =>
                rw [loadCookies_of_setCookie_fail _ env hsck]
                intro hr
                have hr' : (⟨env.newPid, false⟩ : AcquireOk) = r := by
                  injection hr
                rw [← hr']
              next =>
                intro hr
                have hr' : (⟨env.newPid, false⟩ : AcquireOk) = r := by
                  injection hr
                rw [← hr']
  · unfold restart
    rw [initPool_cookies]

/-- Witness for `c8_cookie_oneshot`: with the flag set the acquire keeps it
set; with the flag unset, two valid cookies and a resolving `setCookie`,
the acquire reports an injection and sets the flag; with the flag unset
and a rejected `setCookie`, the acquire leaves the flag unset; the
disconnect handler clears the flag. -/
theorem c8_cookie_oneshot_witness :
    (acquirePage
      { mkPool 0 0 with browser := some ⟨1, true⟩, cookiesLoaded := true } 1
      ⟨⟨true, 0, 0⟩, 9, 0, true, 2, true⟩).1.cookiesLoaded = true
    ∧ ((⟨9, true⟩ : AcquireOk).injected = true
       ∧ (acquirePage
          { mkPool 0 0 with browser := some ⟨1, true⟩ } 1
          ⟨⟨true, 0, 0⟩, 9, 0, true, 2, true⟩).1.cookiesLoaded = true)
    ∧ (acquirePage
        { mkPool 0 0 with browser := some ⟨1, true⟩ } 1
        ⟨⟨true, 0, 0⟩, 9, 0, true, 2, false⟩).1.cookiesLoaded = false
    ∧ (onDisconnected
        { mkPool 0 0 with browser := some ⟨1, true⟩,
                          cookiesLoaded := true }).cookiesLoaded = false := by
  have hT := c8_cookie_oneshot
    { mkPool 0 0 with browser := some ⟨1, true⟩, cookiesLoaded := true } 1 0 0
    ⟨⟨true, 0, 0⟩, 9, 0, true, 2, true⟩ false ⟨0, ⟨true, 0, 0⟩, false⟩
    ⟨0, true, ⟨0, ⟨true, 0, 0⟩, false⟩⟩
  have hF := c8_cookie_oneshot
    { mkPool 0 0 with browser := some ⟨1, true⟩ } 1 0 0
    ⟨⟨true, 0, 0⟩, 9, 0, true, 2, true⟩ false ⟨0, ⟨true, 0, 0⟩, false⟩
    ⟨0, true, ⟨0, ⟨true, 0, 0⟩, false⟩⟩
  have hFail := c8_cookie_oneshot
    { mkPool 0 0 with browser := some ⟨1, true⟩ } 1 0 0
    ⟨⟨true, 0, 0⟩, 9, 0, true, 2, false⟩ false ⟨0, ⟨true, 0, 0⟩, false⟩
    ⟨0, true, ⟨0, ⟨true, 0, 0⟩, false⟩⟩
  exact ⟨(hT.1 rfl).1,
    hF.2.1 rfl rfl (by decide) rfl ⟨9, true⟩ (by decide),
    (hFail.2.2.1 rfl rfl).1,
    hT.2.2.2.2⟩

/-- A successful `get?` bounds the index. -/
theorem listGetLt {α : Type} (l : List α) (i : Nat) (a : α)
    (h : l.get? i = some a) : i < l.length := by
  induction l generalizing i with
  | nil => simp [List.get?] at h
  | cons e rest ih =>
    cases i with
    | zero => simp
    | succ i => exact Nat.succ_lt_succ (ih i h)

/-- Lemma: `set` at an in-bounds index writes the value. -/
theorem listGetSetSelfLt {α : Type} (l : List α) (i : Nat) (a : α)
    (h : i < l.length) : (l.set i a).get? i = some a := by
  induction l generalizing i with
  | nil => simp at h
  | cons e rest ih =>
    cases i with
    | zero => rfl
    | succ i => exact ih i (Nat.lt_of_succ_lt_succ h)

/-- Reading from an updated thread list: either the updated slot or an
untouched one. -/
theorem listGetSetCases {α : Type} (l : List α) (k i : Nat) (a b : α)
    (h : (l.set k a).get? i = some b) (hk : k < l.length) :
    (i = k ∧ b = a) ∨ (i ≠ k ∧ l.get? i = some b) := by
  by_cases hik : i = k
  · subst hik
    rw [listGetSetSelfLt l i a hk] at h
    left
    exact ⟨rfl, by injection h with h2; exact h2.symm⟩
  · right
    rw [listGetSetNe l k i a (fun hE => hik hE.symm)] at h
    exact ⟨hik, h⟩

/-- Elements of `replicate` are the replicated value. -/
theorem listGetReplicate {α : Type} (n i : Nat) (a b : α)
    (h : (List.replicate n a).get? i = some b) : b = a := by
  induction n generalizing i with
  | zero => simp [List.replicate, List.get?] at h
  | succ n ih =>
    cases i with
    | zero =>
      simp [List.replicate, List.get?] at h
      exact h.symm
    | succ i =>
      rw [List.replicate] at h
      exact ih i h

/-- The invariant holds in the initial configuration of `n` concurrent
`initialize()` calls. -/
theorem iInv_init (n : Nat) : IInv (mkICfg n) := by
  refine ⟨?_, ?_, by simp [mkICfg], ?_, ?_, ?_, ?_, ?_⟩
  · intro _ i hcon
    have := listGetReplicate n i IPC.entry IPC.launching hcon
    simp at this
  · intro i j hi hj
    exact absurd (listGetReplicate n i IPC.entry IPC.launching hi)
      (by simp)
  · intro h0
    exact Bool.noConfusion h0
  · intro b hb
    exact Option.noConfusion hb
  · intro h1
    exact absurd h1 (by simp [mkICfg])
  · intro i hw
    exact absurd (listGetReplicate n i IPC.entry IPC.waiting hw) (by simp)
  · intro i r hd
    exact absurd (listGetReplicate n i IPC.entry (IPC.idone r) hd) (by simp)

/-- One step of the success-only concurrent-`initialize` system preserves
the invariant. -/
theorem iInv_step (c c' : ICfg) (hstep : IStep c c') (hinv : IInv c) :
    IInv c' := by
  obtain ⟨A, B, C, D, E, F, G, H⟩ := hinv
  cases hstep with
  | entryWait i h hi =>
    have hk := listGetLt c.threads i IPC.entry h
    refine ⟨?_, ?_, C, D, E, F, ?_, ?_⟩
    · intro h0 j hcon
      rw [hi] at h0
      exact Bool.noConfusion h0
    · intro a b ha hb
      rcases listGetSetCases c.threads i a _ _ ha hk with ⟨_, hpc⟩ | ⟨_, ha'⟩
      · simp at hpc
      rcases listGetSetCases c.threads i b _ _ hb hk with ⟨_, hpc⟩ | ⟨_, hb'⟩
      · simp at hpc
      exact B a b ha' hb'
    · intro j hw
      rcases listGetSetCases c.threads i j _ _ hw hk with ⟨_, _⟩ | ⟨_, hold⟩
      · exact (D hi).1
      · exact G j hold
    · intro j r hd
      rcases listGetSetCases c.threads i j _ _ hd hk with ⟨_, hpc⟩ | ⟨_, hold⟩
      · simp at hpc
      · exact H j r hold
  | entryReuse i b h hi hb =>
    have hk := listGetLt c.threads i IPC.entry h
    refine ⟨?_, ?_, C, D, E, F, ?_, ?_⟩
    · intro h0 j hcon
      rcases listGetSetCases c.threads i j _ _ hcon hk with ⟨_, hpc⟩ | ⟨_, hold⟩
      · simp at hpc
      · exact A hi j hold
    · intro a d ha hd
      rcases listGetSetCases c.threads i a _ _ ha hk with ⟨_, hpc⟩ | ⟨_, ha'⟩
      · simp at hpc
      rcases listGetSetCases c.threads i d _ _ hd hk with ⟨_, hpc⟩ | ⟨_, hd'⟩
      · simp at hpc
      exact B a d ha' hd'
    · intro j hw
      rcases listGetSetCases c.threads i j _ _ hw hk with ⟨_, hpc⟩ | ⟨_, hold⟩
      · simp at hpc
      · exact G j hold
    · intro j r hd
      rcases listGetSetCases c.threads i j _ _ hd hk with ⟨_, hpc⟩ | ⟨_, hold⟩
      · injection hpc with hr
        subst hr
        exact ⟨b, rfl, hb⟩
      · exact H j r hold
  | entryLaunch i h hi hb =>
    have hk := listGetLt c.threads i IPC.entry h
    have hl0 : c.launches = 0 := by
      by_contra hne
      have h1 : c.launches = 1 := by omega
      rcases F h1 with hI | hB
      · rw [hi] at hI
        exact Bool.noConfusion hI
      · rw [hb] at hB
        simp at hB
    refine ⟨?_, ?_, (by omega : c.launches + 1 ≤ 1), ?_, ?_, ?_, ?_, ?_⟩
    · intro h0 _ _
      exact Bool.noConfusion h0
    · intro a d ha hd
      rcases listGetSetCases c.threads i a _ _ ha hk with ⟨hai, _⟩ | ⟨hai, ha'⟩
      · rcases listGetSetCases c.threads i d _ _ hd hk with ⟨hdi, _⟩ | ⟨hdi, hd'⟩
        · rw [hai, hdi]
        · exact absurd (A hi d hd') (by simp)
      · exact absurd (A hi a ha') (by simp)
    · intro _
      exact ⟨(by omega : c.launches + 1 = 1), hb⟩
    · intro b' hbb
      rw [hb] at hbb
      exact Option.noConfusion hbb
    · intro _
      exact Or.inl rfl
    · intro j hw
      exact (by omega : c.launches + 1 = 1)
    · intro j r hd
      rcases listGetSetCases c.threads i j _ _ hd hk with ⟨_, hpc⟩ | ⟨_, hold⟩
      · simp at hpc
      · rcases H j r hold with ⟨bb, _, hbB⟩
        rw [hb] at hbB
        exact Option.noConfusion hbB
  | waitDone i h hi =>
    have hk := listGetLt c.threads i IPC.waiting h
    have hl1 : c.launches = 1 := G i h
    have hbs : ∃ b, c.browser = some b := by
      rcases F hl1 with hI | hB
      · rw [hi] at hI
        exact Bool.noConfusion hI
      · exact Option.isSome_iff_exists.mp hB
    obtain ⟨b, hb⟩ := hbs
    refine ⟨?_, ?_, C, D, E, F, ?_, ?_⟩
    · intro h0 j hcon
      rcases listGetSetCases c.threads i j _ _ hcon hk with ⟨_, hpc⟩ | ⟨_, hold⟩
      · simp at hpc
      · exact A h0 j hold
    · intro a d ha hd
      rcases listGetSetCases c.threads i a _ _ ha hk with ⟨_, hpc⟩ | ⟨_, ha'⟩
      · simp at hpc
      rcases listGetSetCases c.threads i d _ _ hd hk with ⟨_, hpc⟩ | ⟨_, hd'⟩
      · simp at hpc
      exact B a d ha' hd'
    · intro j hw
      rcases listGetSetCases c.threads i j _ _ hw hk with ⟨_, hpc⟩ | ⟨_, hold⟩
      · simp at hpc
      · exact G j hold
    · intro j r hd
      rcases listGetSetCases c.threads i j _ _ hd hk with ⟨_, hpc⟩ | ⟨_, hold⟩
      · injection hpc with hr
        subst hr
        exact ⟨b, by rw [hb], hb⟩
      · exact H j r hold
  | launchDone i h =>
    have hk := listGetLt c.threads i IPC.launching h
    have hI : c.isInitializing = true := by
      cases hI2 : c.isInitializing with
      | true => rfl
      | false => exact absurd h (A hI2 i)
    obtain ⟨hl1, hb⟩ := D hI
    refine ⟨?_, ?_, C, ?_, ?_, ?_, ?_, ?_⟩
    · intro _ j hcon
      rcases listGetSetCases c.threads i j _ _ hcon hk with ⟨_, hpc⟩ | ⟨hji, hold⟩
      · simp at hpc
      · exact absurd (B j i hold h) hji
    · intro a d ha hd
      rcases listGetSetCases c.threads i a _ _ ha hk with ⟨_, hpc⟩ | ⟨hai, ha'⟩
      · simp at hpc
      · exact absurd (B a i ha' h) hai
    · intro h0
      exact Bool.noConfusion h0
    · intro b' hbb
      exact ⟨hl1, rfl⟩
    · intro _
      exact Or.inr rfl
    · intro j hw
      rcases listGetSetCases c.threads i j _ _ hw hk with ⟨_, hpc⟩ | ⟨_, hold⟩
      · simp at hpc
      · exact G j hold
    · intro j r hd
      rcases listGetSetCases c.threads i j _ _ hd hk with ⟨_, hpc⟩ | ⟨_, hold⟩
      · injection hpc with hr
        subst hr
        exact ⟨c.launches, rfl, rfl⟩
      · rcases H j r hold with ⟨bb, _, hbB⟩
        rw [hb] at hbB
        exact Option.noConfusion hbB

/-- The invariant holds in every reachable configuration of the success-only
concurrent-`initialize` system. -/
theorem iInv_reach (n : Nat) (c : ICfg) (h : IReach (mkICfg n) c) : IInv c := by
  induction h with
  | refl => exact iInv_init n
  | tail hr hstep ih => exact iInv_step _ _ hstep ih

/-- C2.  Under every interleaving of `n` concurrent `initialize()` calls on
one pool (launches succeeding, no disconnect events — the scenario of the
claim), at most one launch is ever in progress at a time, at most one
launch ever starts, and every completed call received the unique launched,
now-present handle: callers that suspended in the wait loop get the ready
handle on completion, and a caller finding the pool `READY` returns the
existing handle without launching. -/
theorem c2_single_launch (n : Nat) (c : ICfg) (h : IReach (mkICfg n) c) :
    InitGuarantee c := by
  obtain ⟨A, B, C, D, E, F, G, H⟩ := iInv_reach n c h
  refine ⟨B, C, ?_⟩
  intro i r hd
  rcases H i r hd with ⟨b, hr, hb⟩
  exact ⟨(E b hb).1, b, hr, hb⟩

/-- Witness for `c2_single_launch`: a complete run of two concurrent
`initialize()` calls — thread 0 launches, thread 1 waits, the launch
completes, the waiter returns the handle. -/
theorem c2_single_launch_witness :
    ∃ c, IReach (mkICfg 2) c ∧ InitGuarantee c := by
  have hchain := (Relation.ReflTransGen.refl : IReach (mkICfg 2) (mkICfg 2))
    |>.tail (IStep.entryLaunch _ 0 rfl rfl rfl)
    |>.tail (IStep.entryWait _ 1 rfl rfl)
    |>.tail (IStep.launchDone _ 0 rfl)
    |>.tail (IStep.waitDone _ 1 rfl rfl)
  exact ⟨_, hchain, c2_single_launch 2 _ hchain⟩

/-- C6, counterexample.  Two concurrent `initialize()` calls: thread 0
launches and the launch fails; the suspended thread 1 then completes
*without* an error, returning the absent (`null`) handle (line 441) — so
not every caller awaiting the launch observes the failure as a propagated
error. -/
theorem c6_waiter_gets_null :
    ∃ c, FReach (mkICfg 2) c
      ∧ c.failures = 1
      ∧ c.threads.get? 0
          = some (IPC.idone (Except.error PoolErr.launchFailed))
      ∧ c.threads.get? 1 = some (IPC.idone (Except.ok none)) := by
  have hchain := (Relation.ReflTransGen.refl : FReach (mkICfg 2) (mkICfg 2))
    |>.tail (FStep.base (IStep.entryLaunch _ 0 rfl rfl rfl))
    |>.tail (FStep.base (IStep.entryWait _ 1 rfl rfl))
    |>.tail (FStep.launchFail _ 0 rfl)
    |>.tail (FStep.base (IStep.waitDone _ 1 rfl rfl))
  exact ⟨_, hchain, rfl, rfl, rfl⟩

/-- C6, amended.  On launch failure, the `initialize()` call performing the
launch observes the rethrown error and leaves the pool `UNSTARTED` (handle
absent, initializing flag cleared); a caller suspended in the
initialization wait loop does *not* observe a propagated error — when it
completes it returns whatever handle the pool then holds (line 441), which
is `null` after a failure. -/
theorem c6_launch_failure (c c' : ICfg) (i : Nat) (hstep : FStep c c') :
    (c.threads.get? i = some IPC.launching →
      c'.threads.get? i
        = some (IPC.idone (Except.error PoolErr.launchFailed)) →
      c'.browser = none ∧ c'.isInitializing = false)
    ∧ (c.threads.get? i = some IPC.waiting →
      ∀ r, c'.threads.get? i = some (IPC.idone r) →
        r = Except.ok c.browser) := by
  cases hstep with
  | base hbase =>
    cases hbase with
    | entryWait k hk hik =>
      have hlt := listGetLt c.threads k IPC.entry hk
      constructor
      · intro hL hD
        rcases listGetSetCases c.threads k i _ _ hD hlt with ⟨hik2, hpc⟩ | ⟨_, hold⟩
        · simp at hpc
        · rw [hL] at hold
          simp at hold
      · intro hW r hD
        rcases listGetSetCases c.threads k i _ _ hD hlt with ⟨hik2, hpc⟩ | ⟨_, hold⟩
        · simp at hpc
        · rw [hW] at hold
          simp at hold
    | entryReuse k b hk hik hb =>
      have hlt := listGetLt c.threads k IPC.entry hk
      constructor
      · intro hL hD
        rcases listGetSetCases c.threads k i _ _ hD hlt with ⟨hik2, hpc⟩ | ⟨_, hold⟩
        · simp at hpc
        · rw [hL] at hold
          simp at hold
      · intro hW r hD
        rcases listGetSetCases c.threads k i _ _ hD hlt with ⟨hik2, hpc⟩ | ⟨_, hold⟩
        · subst hik2
          rw [hW] at hk
          simp at hk
        · rw [hW] at hold
          simp at hold
    | entryLaunch k hk hik hb =>
      have hlt := listGetLt c.threads k IPC.entry hk
      constructor
      · intro hL hD
        rcases listGetSetCases c.threads k i _ _ hD hlt with ⟨hik2, hpc⟩ | ⟨_, hold⟩
        · simp at hpc
        · rw [hL] at hold
          simp at hold
      · intro hW r hD
        rcases listGetSetCases c.threads k i _ _ hD hlt with ⟨hik2, hpc⟩ | ⟨_, hold⟩
        · simp at hpc
        · rw [hW] at hold
          simp at hold
    | waitDone k hk hik =>
      have hlt := listGetLt c.threads k IPC.waiting hk
      constructor
      · intro hL hD
        by_cases hik2 : i = k
        · subst hik2
          rw [hL] at hk
          simp at hk
        · rcases listGetSetCases c.threads k i _ _ hD hlt with ⟨hik3, _⟩ | ⟨_, hold⟩
          · exact absurd hik3 hik2
          · rw [hL] at hold
            simp at hold
      · intro hW r hD
        rcases listGetSetCases c.threads k i _ _ hD hlt with ⟨hik2, hpc⟩ | ⟨_, hold⟩
        · exact IPC.idone.inj hpc
        · rw [hW] at hold
          simp at hold
    | launchDone k hk =>
      have hlt := listGetLt c.threads k IPC.launching hk
      constructor
      · intro hL hD
        rcases listGetSetCases c.threads k i _ _ hD hlt with ⟨hik2, hpc⟩ | ⟨_, hold⟩
        · simp at hpc
        · rw [hL] at hold
          simp at hold
      · intro hW r hD
        by_cases hik2 : i = k
        · subst hik2
          rw [hW] at hk
          simp at hk
        · rcases listGetSetCases c.threads k i _ _ hD hlt with ⟨hik3, _⟩ | ⟨_, hold⟩
          · exact absurd hik3 hik2
          · rw [hW] at hold
            simp at hold
  | launchFail k hk =>
    have hlt := listGetLt c.threads k IPC.launching hk
    constructor
    · intro hL hD
      exact ⟨rfl, rfl⟩
    · intro hW r hD
      by_cases hik2 : i = k
      · subst hik2
        rw [hW] at hk
        simp at hk
      · rcases listGetSetCases c.threads k i _ _ hD hlt with ⟨hik3, _⟩ | ⟨_, hold⟩
        · exact absurd hik3 hik2
        · rw [hW] at hold
          simp at hold

/-- Witness for `c6_launch_failure`: the failing launcher's step leaves the
pool `UNSTARTED`, and a waiter completing after the failure returns the
absent handle. -/
theorem c6_launch_failure_witness :
    ({ browser := none, isInitializing := false, launches := 1, failures := 1,
       threads := [IPC.idone (Except.error PoolErr.launchFailed)] }
      : ICfg).browser = none
    ∧ ({ browser := none, isInitializing := false, launches := 1,
         failures := 1,
         threads := [IPC.idone (Except.error PoolErr.launchFailed)] }
      : ICfg).isInitializing = false
    ∧ (Except.ok (none : Option Nat) : Except PoolErr (Option Nat))
        = Except.ok ({ browser := none,
                       isInitializing := false,
                       launches := 1,
                       failures := 1,
                       threads := [IPC.waiting] } : ICfg).browser := by
  have hA := (c6_launch_failure
    { browser := none, isInitializing := true, launches := 1, failures := 0,
      threads := [IPC.launching] } _ 0
    (FStep.launchFail _ 0 rfl)).1 rfl rfl
  have hB := (c6_launch_failure
    { browser := none, isInitializing := false, launches := 1, failures := 1,
      threads := [IPC.waiting] } _ 0
    (FStep.base (IStep.waitDone _ 0 rfl rfl))).2 rfl (Except.ok none) rfl
  exact ⟨hA.1, hA.2, hB⟩
